import Mathlib

/-!
# Verification of the room/connection coordinator

Shallow embedding of the repository's room coordinator:

* `src/app/api/websocket/route.ts` — the `GameServer` class (rooms keyed by
  id, rosters as insertion-ordered `Map`s, join/leave/chat/start).
* `src/app/api/rooms/route.ts` and `src/unnamed/part_001` — the HTTP
  request/response surface (create/join via POST, heartbeat via PUT, leave
  via DELETE, plus the `cleanup` janitor).

JavaScript `Map`s are modelled as association lists that preserve insertion
order: `set` on an existing key updates in place, `set` on a fresh key
appends, `delete` removes, and iteration follows list order — exactly the
ECMAScript `Map` ordering semantics the code relies on for host succession.
Timestamps (`Date.now()`) and random id generation are passed in as explicit
arguments.
-/

namespace Coordinator

/-- `Map.set` semantics: replace in place if the key is present (keeping its
position), otherwise append at the end. -/
def setA {α β : Type} [BEq α] (k : α) (v : β) : List (α × β) → List (α × β)
  | [] => [(k, v)]
  | (k', v') :: rest => if k' == k then (k, v) :: rest else (k', v') :: setA k v rest

/-- `Map.delete` semantics (on lists whose keys are unique, removing every
entry with the key coincides with removing the one entry). -/
def eraseA {α β : Type} [BEq α] (k : α) (l : List (α × β)) : List (α × β) :=
  l.filter (fun p => p.1 != k)

/-- Room lifecycle status, `"waiting" | "playing" | "finished"`. -/
inductive RoomStatus where
  | waiting
  | playing
  | finished
deriving DecidableEq, Repr

/-- `ChatMessage.type`, `"user" | "system"`. -/
inductive MsgKind where
  | user
  | system
deriving DecidableEq, Repr

/-- `ChatMessage` of both route files. -/
structure ChatMessage where
  id : String
  sender : String
  message : String
  timestamp : Nat
  kind : MsgKind
deriving DecidableEq, Repr

/-! ## GameServer model (`src/app/api/websocket/route.ts`) -/

/-- `Player` of the websocket route; the transport handle `ws` is modelled
as an abstract connection number. -/
structure WsPlayer where
  id : String
  name : String
  isAlive : Bool
  isBot : Bool
  isHost : Bool
  ws : Option Nat
deriving DecidableEq, Repr

/-- `GameRoom` of the websocket route; `players` is the insertion-ordered
roster `Map`. -/
structure GameRoom where
  id : String
  name : String
  hostId : String
  players : List (String × WsPlayer)
  maxPlayers : Nat
  minPlayers : Nat
  isPrivate : Bool
  password : Option String
  status : RoomStatus
  lastUpdate : Nat
  chatMessages : List ChatMessage
deriving DecidableEq, Repr

/-- The `GameServer`'s mutable fields: `rooms` and `connections`. -/
structure GSState where
  rooms : List (String × GameRoom)
  connections : List (Nat × (String × Option String))
deriving DecidableEq, Repr

/-- The empty server (`new GameServer()`). -/
def gsInit : GSState := ⟨[], []⟩

/-- `GameServer.createRoom`: inserts a fresh room in `waiting` status with an
empty roster. The generated room id and host id are passed as arguments. -/
def gsCreateRoom (roomId name : String) (maxPlayers minPlayers : Nat)
    (isPrivate : Bool) (password : Option String) (hostId : String)
    (now : Nat) (s : GSState) : GSState :=
  let room : GameRoom :=
    { id := roomId, name := name, hostId := hostId, players := []
      maxPlayers := maxPlayers, minPlayers := minPlayers
      isPrivate := isPrivate, password := password, status := .waiting
      lastUpdate := now, chatMessages := [] }
  { s with rooms := setA roomId room s.rooms }

/-- `GameServer.joinRoom`: room lookup, password check, capacity check,
reconnect path (rebind `ws` for an id already in the roster), otherwise
append a new roster entry — host exactly when the roster was empty or the
id equals the recorded `hostId` — plus the system chat entry. Returns the
boolean success result together with the next state. -/
def gsJoinRoom (roomId playerId playerName : String) (ws : Nat)
    (password : Option String) (now : Nat) (s : GSState) : Bool × GSState :=
  match List.lookup roomId s.rooms with
  | none => (false, s)
  | some room =>
    if room.isPrivate && room.password != password then (false, s)
    else if room.maxPlayers ≤ room.players.length then (false, s)
    else
      match List.lookup playerId room.players with
      | some existingPlayer =>
        let room' := { room with
          players := setA playerId { existingPlayer with ws := some ws } room.players }
        (true, { s with rooms := setA roomId room' s.rooms
                        connections := setA ws (playerId, some roomId) s.connections })
      | none =>
        let isHost : Bool := room.players.length == 0 || playerId == room.hostId
        let player : WsPlayer :=
          { id := playerId, name := playerName, isAlive := true, isBot := false
            isHost := isHost, ws := some ws }
        let systemMessage : ChatMessage :=
          { id := toString now, sender := "Система"
            message := playerName ++ " присоединился к игре"
            timestamp := now, kind := .system }
        let room' := { room with
          players := room.players ++ [(playerId, player)]
          chatMessages := room.chatMessages ++ [systemMessage] }
        (true, { s with rooms := setA roomId room' s.rooms
                        connections := setA ws (playerId, some roomId) s.connections })

/-- `GameServer.leaveRoom`: delete the roster entry; an emptied room is
removed from the registry; otherwise, if the departing player held the host
flag, the first remaining roster entry (earliest joined, by `Map` insertion
order) gets the flag and `hostId`; a system chat entry is appended. -/
def gsLeaveRoom (playerId : String) (roomId : Option String) (now : Nat)
    (s : GSState) : GSState :=
  match roomId with
  | none => s
  | some rid =>
    match List.lookup rid s.rooms with
    | none => s
    | some room =>
      match List.lookup playerId room.players with
      | none => s
      | some player =>
        match eraseA playerId room.players with
        | [] => { s with rooms := eraseA rid s.rooms }
        | (k₀, p₀) :: rest =>
          let room' :=
            if player.isHost then
              { room with hostId := p₀.id
                          players := (k₀, { p₀ with isHost := true }) :: rest }
            else
              { room with players := (k₀, p₀) :: rest }
          let systemMessage : ChatMessage :=
            { id := toString now, sender := "Система"
              message := player.name ++ " покинул игру"
              timestamp := now, kind := .system }
          let room'' := { room' with
            chatMessages := room'.chatMessages ++ [systemMessage] }
          { s with rooms := setA rid room'' s.rooms }

/-- `GameServer.addChatMessage`: unconditionally appends a user chat entry
with the caller-supplied message id (no deduplication step exists). -/
def gsAddChatMessage (roomId sender message messageId : String) (now : Nat)
    (s : GSState) : GSState :=
  match List.lookup roomId s.rooms with
  | none => s
  | some room =>
    let chatMessage : ChatMessage :=
      { id := messageId, sender := sender, message := message
        timestamp := now, kind := .user }
    let room' := { room with chatMessages := room.chatMessages ++ [chatMessage] }
    { s with rooms := setA roomId room' s.rooms }

/-- `GameServer.startGame`: silently returns unless the requester id equals
the room's `hostId` and the roster has at least `minPlayers` members; on
success sets `status := playing`. The room's current status is never
consulted. Result `true` models the success (broadcast) path. -/
def gsStartGame (roomId hostId : String) (s : GSState) : Bool × GSState :=
  match List.lookup roomId s.rooms with
  | none => (false, s)
  | some room =>
    if room.hostId != hostId then (false, s)
    else if room.players.length < room.minPlayers then (false, s)
    else (true, { s with rooms := setA roomId ({ room with status := .playing }) s.rooms })

/-- Reachable `GameServer` states: any interleaving of the mutating
operations, with arbitrary arguments (ids and timestamps are adversarial,
standing for the random generators and the clock). -/
inductive GSReach : GSState → Prop where
  | init : GSReach gsInit
  | create {s} (roomId name : String) (maxPlayers minPlayers : Nat)
      (isPrivate : Bool) (password : Option String) (hostId : String) (now : Nat) :
      GSReach s → GSReach (gsCreateRoom roomId name maxPlayers minPlayers isPrivate password hostId now s)
  | join {s} (roomId playerId playerName : String) (ws : Nat)
      (password : Option String) (now : Nat) :
      GSReach s → GSReach (gsJoinRoom roomId playerId playerName ws password now s).2
  | leave {s} (playerId : String) (roomId : Option String) (now : Nat) :
      GSReach s → GSReach (gsLeaveRoom playerId roomId now s)
  | chat {s} (roomId sender message messageId : String) (now : Nat) :
      GSReach s → GSReach (gsAddChatMessage roomId sender message messageId now s)
  | start {s} (roomId hostId : String) :
      GSReach s → GSReach (gsStartGame roomId hostId s).2

/-! ## HTTP rooms route model (`src/app/api/rooms/route.ts`, `src/unnamed/part_001`)

The two route files are the same handler; `src/unnamed/part_001` is the
variant that additionally stores `minPlayers` and the chat log, so it is
the one embedded (every check below is identical in
`src/app/api/rooms/route.ts`).

`validateRoomData`, `generateId`, `generateRoomCode` and
`createErrorHandler` are imported from `src/utils/safe-storage`, which is
not among the sources. Modelled from the spec: validation of the numeric
bounds passes (the spec says out-of-range `minPlayers`/`maxPlayers` are
clamped "rather than failing, to tolerate malformed client input"), and the
generators are passed in as explicit arguments. -/

/-- `String.prototype.trim()`: strip leading and trailing whitespace.
(Executable replacement for `String.trim`, which Lean defines by
well-founded recursion; same result on every input considered here.) -/
def strTrim (s : String) : String :=
  ⟨((s.data.dropWhile Char.isWhitespace).reverse.dropWhile Char.isWhitespace).reverse⟩

/-- `String.prototype.toLowerCase()` over the characters. -/
def strLower (s : String) : String := ⟨s.data.map Char.toLower⟩

/-- `Player` of the rooms route (the directory record). -/
structure HPlayer where
  id : String
  name : String
  roomId : Option String
  lastSeen : Nat
  isHost : Bool
deriving DecidableEq, Repr

/-- `GameRoom` of the rooms route: the roster is a list of player ids in
join order. Player-count bounds are JavaScript numbers, kept as `Int`. -/
structure HRoom where
  id : String
  name : String
  hostId : String
  players : List String
  maxPlayers : Int
  minPlayers : Int
  isPrivate : Bool
  password : Option String
  status : RoomStatus
  lastUpdate : Nat
  createdAt : Nat
  chatMessages : List ChatMessage
deriving DecidableEq, Repr

/-- The module-level stores `rooms` and `players` of the rooms route. -/
structure HState where
  rooms : List (String × HRoom)
  players : List (String × HPlayer)
deriving DecidableEq, Repr

/-- The empty stores. -/
def hInit : HState := ⟨[], []⟩

/-- A `NextResponse.json` body: `success` plus the optional fields the
handlers put next to it. -/
structure HResp where
  success : Bool
  error : Option String := none
  roomId : Option String := none
  playerId : Option String := none
  isHost : Option Bool := none
deriving DecidableEq, Repr

/-- JavaScript truthiness of an optional string: `undefined` and `""` are
falsy (`playerId || generateId()`). -/
def resolveId (given : Option String) (generated : String) : String :=
  match given with
  | none => generated
  | some p => if p = "" then generated else p

/-- `Math.min(Math.max(maxPlayers, 4), 10)`. -/
def clampMax (m : Int) : Int := min (max m 4) 10

/-- `Math.min(Math.max(minPlayers || 4, 4), 8)`; `minPlayers || 4` maps the
falsy values (absent field, `0`) to `4`. -/
def clampMin (m : Option Int) : Int :=
  min (max (match m with | none => 4 | some v => if v = 0 then 4 else v) 4) 8

/-- POST `action === "create"` (after the janitor pass the route runs
first): room-count cap, required-field truthiness checks, clamping of the
player bounds, then insertion of the host player record and the new room
whose roster is exactly the creator. -/
def createCore (genPlayerId genRoomCode : String) (now : Nat)
    (playerName roomName : Option String) (maxPlayers minPlayers : Option Int)
    (isPrivate : Bool) (password : Option String) (s : HState) : HResp × HState :=
  if 100 ≤ s.rooms.length then
    ({ success := false, error := some "Достигнут лимит комнат на сервере" }, s)
  else
    let rnm := strTrim (roomName.getD "")
    let pnm := strTrim (playerName.getD "")
    if rnm = "" ∨ pnm = "" ∨ maxPlayers = none ∨ maxPlayers = some 0 then
      ({ success := false, error := some "Отсутствуют обязательные поля" }, s)
    else
      let newPlayerId := resolveId none genPlayerId
      let newRoomId := genRoomCode
      let player : HPlayer :=
        { id := newPlayerId, name := pnm, roomId := some newRoomId
          lastSeen := now, isHost := true }
      let room : HRoom :=
        { id := newRoomId, name := rnm, hostId := newPlayerId
          players := [newPlayerId]
          maxPlayers := clampMax (maxPlayers.getD 0)
          minPlayers := clampMin minPlayers
          isPrivate := isPrivate
          password := if isPrivate then password.map strTrim else none
          status := .waiting, lastUpdate := now, createdAt := now
          chatMessages :=
            [ { id := "system-" ++ toString now, sender := "Система"
                message := "Добро пожаловать в комнату " ++ rnm ++ "!"
                timestamp := now, kind := .system }
            , { id := "system-" ++ toString (now + 1), sender := "Система"
                message := "Игрок " ++ pnm ++ " создал комнату"
                timestamp := now, kind := .system } ] }
      ({ success := true, roomId := some newRoomId, playerId := some newPlayerId
         isHost := some true },
       { rooms := setA newRoomId room s.rooms
         players := setA newPlayerId player s.players })

/-- The duplicate-display-name scan of POST join: some *other* roster
member's directory record carries the same name, case-insensitively. -/
def hasDupName (s : HState) (room : HRoom) (nm : String) : Bool :=
  room.players.any (fun pid =>
    match List.lookup pid s.players with
    | some p => strLower p.name == strLower nm
    | none => false)

/-- POST `action === "join"`: required fields, then — in source order —
room lookup, the private-room password check, the capacity check, the
status check, the idempotent reconnect path for an id already on the
roster, the duplicate-display-name rejection, and finally the insertion of
the new member (never as host). -/
def joinCore (genPlayerId : String) (now : Nat)
    (roomId playerId playerName password : Option String) (s : HState) :
    HResp × HState :=
  let rid := strTrim (roomId.getD "")
  let pnm := strTrim (playerName.getD "")
  if rid = "" ∨ pnm = "" then
    ({ success := false, error := some "Отсутствуют обязательные поля" }, s)
  else
    match List.lookup rid s.rooms with
    | none => ({ success := false, error := some "Комната не найдена" }, s)
    | some room =>
      if room.isPrivate && room.password != password.map strTrim then
        ({ success := false, error := some "Неверный пароль" }, s)
      else if room.maxPlayers ≤ (room.players.length : Int) then
        ({ success := false, error := some "Комната заполнена" }, s)
      else if room.status ≠ .waiting then
        ({ success := false, error := some "Игра уже началась" }, s)
      else
        let newPlayerId := resolveId playerId genPlayerId
        if room.players.contains newPlayerId then
          let players' :=
            match List.lookup newPlayerId s.players with
            | some existingPlayer =>
              setA newPlayerId { existingPlayer with lastSeen := now } s.players
            | none => s.players
          ({ success := true, roomId := some rid, playerId := some newPlayerId
             isHost := some (room.hostId == newPlayerId) },
           { s with players := players' })
        else if hasDupName s room pnm then
          ({ success := false, error := some "Игрок с таким именем уже в комнате" }, s)
        else
          let player : HPlayer :=
            { id := newPlayerId, name := pnm, roomId := some rid
              lastSeen := now, isHost := false }
          let sysMsg : ChatMessage :=
            { id := "system-" ++ toString now, sender := "Система"
              message := "Игрок " ++ pnm ++ " присоединился к игре"
              timestamp := now, kind := .system }
          let room' := { room with
            players := room.players ++ [newPlayerId]
            lastUpdate := now
            chatMessages := room.chatMessages ++ [sysMsg] }
          ({ success := true, roomId := some rid, playerId := some newPlayerId
             isHost := some false },
           { rooms := setA rid room' s.rooms
             players := setA newPlayerId player s.players })

/-- PUT (heartbeat): refresh the player's `lastSeen` and, when bound to an
existing room, the room's `lastUpdate`. -/
def putHeartbeat (playerId : Option String) (now : Nat) (s : HState) :
    HResp × HState :=
  match playerId with
  | none => ({ success := false, error := some "Отсутствует ID игрока" }, s)
  | some pid =>
    if pid = "" then ({ success := false, error := some "Отсутствует ID игрока" }, s)
    else
      match List.lookup pid s.players with
      | none => ({ success := true }, s)
      | some player =>
        let players' := setA pid { player with lastSeen := now } s.players
        let rooms' :=
          match player.roomId with
          | none => s.rooms
          | some rid =>
            match List.lookup rid s.rooms with
            | none => s.rooms
            | some room => setA rid { room with lastUpdate := now } s.rooms
        ({ success := true }, { rooms := rooms', players := players' })

/-- DELETE (leave): a falsy `playerId` is rejected; an unknown or room-less
player is a silent success. Otherwise the roster entry is filtered out, a
system chat entry recorded, an emptied room deleted, host succession goes
to the first remaining roster id, and the directory record is deleted. -/
def deleteLeave (playerId : Option String) (now : Nat) (s : HState) :
    HResp × HState :=
  match playerId with
  | none => ({ success := false, error := some "Отсутствует ID игрока" }, s)
  | some pid =>
    if pid = "" then ({ success := false, error := some "Отсутствует ID игрока" }, s)
    else
      match List.lookup pid s.players with
      | none => ({ success := true }, s)
      | some player =>
        match player.roomId with
        | none => ({ success := true }, s)
        | some rid =>
          let s1 :=
            match List.lookup rid s.rooms with
            | none => s
            | some room =>
              let leftMsg : ChatMessage :=
                { id := "system-" ++ toString now, sender := "Система"
                  message := "Игрок " ++ player.name ++ " покинул комнату"
                  timestamp := now, kind := .system }
              match room.players.filter (fun q => q != pid) with
              | [] => { s with rooms := eraseA rid s.rooms }
              | h :: t =>
                if room.hostId = pid then
                  let chat' := room.chatMessages ++ [leftMsg]
                  let room' := { room with players := h :: t, hostId := h, chatMessages := chat' }
                  let players' :=
                    match List.lookup h s.players with
                    | some newHost => setA h { newHost with isHost := true } s.players
                    | none => s.players
                  { rooms := setA rid room' s.rooms, players := players' }
                else
                  let chat' := room.chatMessages ++ [leftMsg]
                  let room' := { room with players := h :: t, chatMessages := chat' }
                  { s with rooms := setA rid room' s.rooms }
          (⟨true, none, none, none, none⟩, { s1 with players := eraseA pid s1.players })

/-- `timeout` of `cleanup`: 30 minutes in milliseconds. -/
def staleTimeout : Nat := 30 * 60 * 1000

/-- One step of the janitor's stale-player sweep: delete the directory
record, filter the player out of their room's roster, record the
disconnect chat entry, delete the room if emptied, otherwise reassign the
host to the first remaining roster id when the stale player held it. -/
def removeStalePlayer (now : Nat) (pid : String) (player : HPlayer)
    (s : HState) : HState :=
  let s1 := { s with players := eraseA pid s.players }
  match player.roomId with
  | none => s1
  | some rid =>
    match List.lookup rid s1.rooms with
    | none => s1
    | some room =>
      let discMsg : ChatMessage :=
        { id := "system-" ++ toString now, sender := "Система"
          message := "Игрок " ++ player.name ++ " отключился"
          timestamp := now, kind := .system }
      match room.players.filter (fun q => q != pid) with
      | [] => { s1 with rooms := eraseA rid s1.rooms }
      | h :: t =>
        if room.hostId = pid then
          let chat' := room.chatMessages ++ [discMsg]
          let room' := { room with players := h :: t, hostId := h, chatMessages := chat' }
          let players' :=
            match List.lookup h s1.players with
            | some newHost => setA h { newHost with isHost := true } s1.players
            | none => s1.players
          { rooms := setA rid room' s1.rooms, players := players' }
        else
          let chat' := room.chatMessages ++ [discMsg]
          let room' := { room with players := h :: t, chatMessages := chat' }
          { s1 with rooms := setA rid room' s1.rooms }

/-- The guard of the stale-player sweep applied to one directory key of the
current state. -/
def cleanupPlayerStep (now : Nat) (s : HState) (pid : String) : HState :=
  match List.lookup pid s.players with
  | none => s
  | some player =>
    if staleTimeout < now - player.lastSeen then removeStalePlayer now pid player s
    else s

/-- The empty-or-old room sweep applied to one registry key of the current
state. -/
def cleanupRoomStep (now : Nat) (s : HState) (rid : String) : HState :=
  match List.lookup rid s.rooms with
  | none => s
  | some room =>
    if room.players.length = 0 ∨ staleTimeout < now - room.lastUpdate then
      { s with rooms := eraseA rid s.rooms }
    else s

/-- The room-count cap: if more than 100 rooms remain, evict the
oldest-created until back at the cap (`sort` by `createdAt`, stable, then
delete the prefix). -/
def cleanupCap (s : HState) : HState :=
  if 100 < s.rooms.length then
    let sorted := s.rooms.mergeSort (fun a b => a.2.createdAt ≤ b.2.createdAt)
    let toDelete := (sorted.take (s.rooms.length - 100)).map Prod.fst
    toDelete.foldl (fun st k => { st with rooms := eraseA k st.rooms }) s
  else s

/-- `cleanup()`: sweep stale players (iterating the directory keys in
insertion order against the live state), then sweep empty/old rooms, then
enforce the room-count cap. -/
def cleanup (now : Nat) (s : HState) : HState :=
  let s1 := (s.players.map Prod.fst).foldl (cleanupPlayerStep now) s
  let s2 := (s1.rooms.map Prod.fst).foldl (cleanupRoomStep now) s1
  cleanupCap s2

/-- POST create as the route runs it: `cleanup()` first, then the create
handler. -/
def postCreate (genPlayerId genRoomCode : String) (now : Nat)
    (playerName roomName : Option String) (maxPlayers minPlayers : Option Int)
    (isPrivate : Bool) (password : Option String) (s : HState) : HResp × HState :=
  createCore genPlayerId genRoomCode now playerName roomName maxPlayers minPlayers
    isPrivate password (cleanup now s)

/-- POST join as the route runs it: `cleanup()` first, then the join
handler. -/
def postJoin (genPlayerId : String) (now : Nat)
    (roomId playerId playerName password : Option String) (s : HState) :
    HResp × HState :=
  joinCore genPlayerId now roomId playerId playerName password (cleanup now s)

/-- Reachable states of the rooms-route stores: any interleaving of the
exported handlers (GET runs only `cleanup`), with adversarial arguments. -/
inductive HReach : HState → Prop where
  | init : HReach hInit
  | get {s} (now : Nat) : HReach s → HReach (cleanup now s)
  | create {s} (genPlayerId genRoomCode : String) (now : Nat)
      (playerName roomName : Option String) (maxPlayers minPlayers : Option Int)
      (isPrivate : Bool) (password : Option String) :
      HReach s →
      HReach (postCreate genPlayerId genRoomCode now playerName roomName maxPlayers
        minPlayers isPrivate password s).2
  | join {s} (genPlayerId : String) (now : Nat)
      (roomId playerId playerName password : Option String) :
      HReach s →
      HReach (postJoin genPlayerId now roomId playerId playerName password s).2
  | heartbeat {s} (playerId : Option String) (now : Nat) :
      HReach s → HReach (putHeartbeat playerId now s).2
  | leave {s} (playerId : Option String) (now : Nat) :
      HReach s → HReach (deleteLeave playerId now s).2

/-! ## Association-list lemmas (the `Map` semantics) -/

/-- `List.lookup` on a cons cell, in `if` form. -/
theorem lookup_cons_if {α β : Type} [BEq α] (a k : α) (b : β) (es : List (α × β)) :
    List.lookup a ((k, b) :: es) = if a == k then some b else List.lookup a es := by
  cases h : a == k <;> simp [List.lookup_cons, h]

/-- Deleting a key only shrinks the key sequence. -/
theorem keys_eraseA_sublist {α β : Type} [BEq α] (k : α) (l : List (α × β)) :
    ((eraseA k l).map Prod.fst).Sublist (l.map Prod.fst) :=
  (List.filter_sublist l).map Prod.fst

section AssocLemmas

variable {α β : Type} [BEq α] [LawfulBEq α]

theorem lookup_setA_self (k : α) (v : β) (l : List (α × β)) :
    List.lookup k (setA k v l) = some v := by
  induction l with
  | nil => simp [setA, lookup_cons_if]
  | cons hd tl ih =>
    obtain ⟨a, b⟩ := hd
    by_cases h : a = k
    · have hs : setA k v ((a, b) :: tl) = (k, v) :: tl := by simp [setA, h]
      simp [hs, lookup_cons_if]
    · have hs : setA k v ((a, b) :: tl) = (a, b) :: setA k v tl := by simp [setA, h]
      rw [hs, lookup_cons_if, if_neg (by simp [Ne.symm h])]
      exact ih

theorem lookup_setA_ne (k k' : α) (v : β) (l : List (α × β)) (h : k' ≠ k) :
    List.lookup k' (setA k v l) = List.lookup k' l := by
  induction l with
  | nil =>
    show List.lookup k' [(k, v)] = List.lookup k' []
    rw [lookup_cons_if, if_neg (by simpa using h)]
  | cons hd tl ih =>
    obtain ⟨a, b⟩ := hd
    by_cases hh : a = k
    · have hs : setA k v ((a, b) :: tl) = (k, v) :: tl := by simp [setA, hh]
      subst hh
      rw [hs, lookup_cons_if, if_neg (by simp [h]), lookup_cons_if,
        if_neg (by simp [h])]
    · have hs : setA k v ((a, b) :: tl) = (a, b) :: setA k v tl := by simp [setA, hh]
      rw [hs, lookup_cons_if, lookup_cons_if, ih]

theorem lookup_eraseA_self (k : α) (l : List (α × β)) :
    List.lookup k (eraseA k l) = none := by
  induction l with
  | nil => simp [eraseA]
  | cons hd tl ih =>
    obtain ⟨a, b⟩ := hd
    by_cases hh : a = k
    · have hs : eraseA k ((a, b) :: tl) = eraseA k tl := by
        simp [eraseA, List.filter_cons, hh]
      rw [hs]; exact ih
    · have hs : eraseA k ((a, b) :: tl) = (a, b) :: eraseA k tl := by
        simp [eraseA, List.filter_cons, bne_iff_ne, hh]
      rw [hs, lookup_cons_if, if_neg (by simp [Ne.symm hh])]
      exact ih

theorem lookup_eraseA_ne (k k' : α) (l : List (α × β)) (h : k' ≠ k) :
    List.lookup k' (eraseA k l) = List.lookup k' l := by
  induction l with
  | nil => simp [eraseA]
  | cons hd tl ih =>
    obtain ⟨a, b⟩ := hd
    by_cases hh : a = k
    · have hs : eraseA k ((a, b) :: tl) = eraseA k tl := by
        simp [eraseA, List.filter_cons, hh]
      subst hh
      rw [hs, lookup_cons_if, if_neg (by simp [h])]
      exact ih
    · have hs : eraseA k ((a, b) :: tl) = (a, b) :: eraseA k tl := by
        simp [eraseA, List.filter_cons, bne_iff_ne, hh]
      rw [hs, lookup_cons_if, lookup_cons_if, ih]

theorem mem_eraseA {e : α × β} {k : α} {l : List (α × β)} :
    e ∈ eraseA k l ↔ e ∈ l ∧ e.1 ≠ k := by
  simp [eraseA, List.mem_filter, bne_iff_ne]

theorem lookup_none_iff_keys {k : α} {l : List (α × β)} :
    List.lookup k l = none ↔ k ∉ l.map Prod.fst := by
  rw [List.lookup_eq_none_iff]
  constructor
  · intro h hk
    obtain ⟨p, hp, hfst⟩ := List.mem_map.mp hk
    have := h p hp
    rw [bne_iff_ne] at this
    exact this hfst.symm
  · intro h p hp
    rw [bne_iff_ne]
    intro hc
    exact h (hc ▸ List.mem_map_of_mem Prod.fst hp)

theorem lookup_isSome_of_mem {e : α × β} {l : List (α × β)} (h : e ∈ l) :
    (List.lookup e.1 l).isSome := by
  rw [List.lookup_isSome_iff]
  exact ⟨e, h, by simp⟩

theorem lookup_of_mem_nodup {e : α × β} {l : List (α × β)}
    (hnd : (l.map Prod.fst).Nodup) (h : e ∈ l) :
    List.lookup e.1 l = some e.2 := by
  induction l with
  | nil => simp at h
  | cons hd tl ih =>
    obtain ⟨a, b⟩ := hd
    simp only [List.map_cons, List.nodup_cons] at hnd
    rcases List.mem_cons.mp h with h | h
    · subst h
      simp [lookup_cons_if]
    · have hne : e.1 ≠ a := fun hc => hnd.1 (hc ▸ List.mem_map_of_mem Prod.fst h)
      rw [lookup_cons_if, if_neg (by simp [hne])]
      exact ih hnd.2 h

theorem mem_setA_of_mem {e : α × β} {k : α} {v : β} {l : List (α × β)}
    (h : e ∈ l) (hne : e.1 ≠ k) : e ∈ setA k v l := by
  induction l with
  | nil => simp at h
  | cons hd tl ih =>
    obtain ⟨a, b⟩ := hd
    by_cases hh : a = k
    · have hs : setA k v ((a, b) :: tl) = (k, v) :: tl := by simp [setA, hh]
      rw [hs]
      rcases List.mem_cons.mp h with h | h
      · rw [h] at hne
        exact absurd hh hne
      · exact List.mem_cons_of_mem _ h
    · have hs : setA k v ((a, b) :: tl) = (a, b) :: setA k v tl := by simp [setA, hh]
      rw [hs]
      rcases List.mem_cons.mp h with h | h
      · exact h ▸ List.mem_cons_self _ _
      · exact List.mem_cons_of_mem _ (ih h)

theorem self_mem_setA (k : α) (v : β) (l : List (α × β)) :
    (k, v) ∈ setA k v l := by
  induction l with
  | nil => simp [setA]
  | cons hd tl ih =>
    obtain ⟨a, b⟩ := hd
    by_cases hh : a = k
    · have hs : setA k v ((a, b) :: tl) = (k, v) :: tl := by simp [setA, hh]
      rw [hs]
      exact List.mem_cons_self _ _
    · have hs : setA k v ((a, b) :: tl) = (a, b) :: setA k v tl := by simp [setA, hh]
      rw [hs]
      exact List.mem_cons_of_mem _ ih

theorem keys_setA_of_lookup {k : α} {v : β} {l : List (α × β)}
    (h : (List.lookup k l).isSome) :
    (setA k v l).map Prod.fst = l.map Prod.fst := by
  induction l with
  | nil => simp at h
  | cons hd tl ih =>
    obtain ⟨a, b⟩ := hd
    by_cases hh : a = k
    · have hs : setA k v ((a, b) :: tl) = (k, v) :: tl := by simp [setA, hh]
      rw [hs]
      simp [hh]
    · have hs : setA k v ((a, b) :: tl) = (a, b) :: setA k v tl := by simp [setA, hh]
      have hl : (List.lookup k tl).isSome := by
        rw [lookup_cons_if, if_neg (by simp [Ne.symm hh])] at h
        exact h
      rw [hs]
      simp [ih hl]

theorem length_setA_of_lookup {k : α} {v : β} {l : List (α × β)}
    (h : (List.lookup k l).isSome) :
    (setA k v l).length = l.length := by
  have h1 := keys_setA_of_lookup (v := v) h
  have h2 : ((setA k v l).map Prod.fst).length = (l.map Prod.fst).length := by rw [h1]
  simpa using h2

end AssocLemmas

/-! ## Concrete traces used by counterexamples and witnesses -/

/-- A fallback room value for `Option.getD` (never selected below: every
lookup is by a key that is present). -/
def arbRoom : GameRoom :=
  { id := "", name := "", hostId := "", players := [], maxPlayers := 0
    minPlayers := 0, isPrivate := false, password := none, status := .waiting
    lastUpdate := 0, chatMessages := [] }

/-- A fallback HTTP room value for `Option.getD`. -/
def arbHRoom : HRoom :=
  { id := "", name := "", hostId := "", players := [], maxPlayers := 0
    minPlayers := 0, isPrivate := false, password := none, status := .waiting
    lastUpdate := 0, createdAt := 0, chatMessages := [] }

/-- `createRoom` with recorded host `"H"`, then a first joiner `"A"` (host
because the roster was empty). -/
def gsTwoHostsB : GSState :=
  (gsJoinRoom "R" "A" "Alice" 1 none 1
    (gsCreateRoom "R" "room" 10 4 false none "H" 0 gsInit)).2

/-- ... then `"H"` joins and is also flagged host (`playerId === hostId`). -/
def gsTwoHosts : GSState := (gsJoinRoom "R" "H" "Bob" 2 none 2 gsTwoHostsB).2

/-- A one-member room with `minPlayers = 1`, ready to start. -/
def gsPrePlaying : GSState :=
  (gsJoinRoom "S" "H" "Hank" 1 none 1
    (gsCreateRoom "S" "r" 10 1 false none "H" 0 gsInit)).2

/-- The room stored in `gsPrePlaying`. -/
def gsPrePlayingRoom : GameRoom := (List.lookup "S" gsPrePlaying.rooms).getD arbRoom

/-- The same room after its game was started (`status = playing`). -/
def gsPlaying : GSState := (gsStartGame "S" "H" gsPrePlaying).2

/-- A room at capacity (`maxPlayers = 1`) holding exactly its host. -/
def gsFullRoom : GSState :=
  (gsJoinRoom "F" "H" "Hank" 1 none 1
    (gsCreateRoom "F" "r" 1 1 false none "H" 0 gsInit)).2

/-- The same chat message id posted twice into one room. -/
def gsDupChat : GSState :=
  gsAddChatMessage "C" "Alice" "hi" "m1" 2
    (gsAddChatMessage "C" "Alice" "hi" "m1" 1
      (gsCreateRoom "C" "r" 10 4 false none "H" 0 gsInit))

/-- Two different player ids joining room `"N"` under the same display
name `"Alice"`. -/
def gsTwoNames : GSState :=
  (gsJoinRoom "N" "B" "Alice" 2 none 2
    (gsJoinRoom "N" "A" "Alice" 1 none 1
      (gsCreateRoom "N" "n" 10 4 false none "HN" 0 gsInit)).2).2

/-- A fresh one-member room used in witnesses. -/
def gsOneMember : GSState :=
  (gsJoinRoom "W" "P" "Pat" 5 none 3
    (gsCreateRoom "W" "w" 8 4 false none "P" 3 gsInit)).2

/-- The room stored in `gsOneMember`. -/
def gsOneMemberRoom : GameRoom := (List.lookup "W" gsOneMember.rooms).getD arbRoom

/-- The roster entry stored in `gsOneMemberRoom`. -/
def gsOneMemberPat : WsPlayer :=
  (List.lookup "P" gsOneMemberRoom.players).getD ⟨"", "", false, false, false, none⟩

/-- Three joiners `P1 P2 P3` (in this order), `P1` the host. -/
def gsTrio : GSState :=
  (gsJoinRoom "H7" "P3" "Cal" 3 none 3
    (gsJoinRoom "H7" "P2" "Ben" 2 none 2
      (gsJoinRoom "H7" "P1" "Ann" 1 none 1
        (gsCreateRoom "H7" "r" 8 4 false none "P1" 0 gsInit)).2).2).2

/-- The room stored in `gsTrio`. -/
def gsTrioRoom : GameRoom := (List.lookup "H7" gsTrio.rooms).getD arbRoom

/-- The host entry stored in `gsTrioRoom`. -/
def gsTrioAnn : WsPlayer :=
  (List.lookup "P1" gsTrioRoom.players).getD ⟨"", "", false, false, false, none⟩

/-- The second-joined entry stored in `gsTrioRoom`. -/
def gsTrioBen : WsPlayer :=
  (List.lookup "P2" gsTrioRoom.players).getD ⟨"", "", false, false, false, none⟩

/-- The third-joined entry stored in `gsTrioRoom`. -/
def gsTrioCal : WsPlayer :=
  (List.lookup "P3" gsTrioRoom.players).getD ⟨"", "", false, false, false, none⟩

/-- HTTP store holding one room `"R9"` whose sole member `"p1"` registered
at time 0. -/
def hSolo : HState :=
  (createCore "p1" "R9" 0 (some "Ann") (some "Nine") (some 6) none false none hInit).2

/-- The room stored in `hSolo`. -/
def hSoloRoom : HRoom := (List.lookup "R9" hSolo.rooms).getD arbHRoom

/-- The player record stored in `hSolo`. -/
def hSoloPlayer : HPlayer :=
  (List.lookup "p1" hSolo.players).getD ⟨"", "", none, 0, false⟩

/-- HTTP store holding one waiting room `"J6"` with member `"h1"` named
`"Ann"`. -/
def hOne : HState :=
  (createCore "h1" "J6" 0 (some "Ann") (some "Six") (some 5) none false none hInit).2

/-- The room stored in `hOne`. -/
def hOneRoom : HRoom := (List.lookup "J6" hOne.rooms).getD arbHRoom

/-! ## Shared helper lemmas -/

/-- The stored `minPlayers` always lands in `[4, 8]`. -/
theorem clampMin_bounds (m : Option Int) : 4 ≤ clampMin m ∧ clampMin m ≤ 8 := by
  unfold clampMin
  exact ⟨le_min (le_max_right _ _) (by norm_num), min_le_right _ _⟩

/-- The stored `maxPlayers` always lands in `[4, 10]`. -/
theorem clampMax_bounds (m : Int) : 4 ≤ clampMax m ∧ clampMax m ≤ 10 := by
  unfold clampMax
  exact ⟨le_min (le_max_right _ _) (by norm_num), min_le_right _ _⟩

/-! ## Claim C3 — `startGame` guard -/

/-- C3, counterexample: a reachable room in `playing` status on which the
host's `startGame` nevertheless succeeds — the claim's "rejects unless
status is waiting" clause is false of `GameServer.startGame`, which never
consults the status. -/
theorem c3_counterexample :
    GSReach gsPlaying ∧
    (List.lookup "S" gsPlaying.rooms).map GameRoom.status = some RoomStatus.playing ∧
    (gsStartGame "S" "H" gsPlaying).1 = true :=
  ⟨GSReach.start "S" "H"
    (GSReach.join "S" "H" "Hank" 1 none 1
      (GSReach.create "S" "r" 10 1 false none "H" 0 GSReach.init)),
   by decide, by decide⟩

/-- C3 (amended): `startGame` succeeds exactly when the requester id equals
the room's current `hostId` and the roster has at least `minPlayers`
members — the room's status is *not* checked — and on success the stored
status becomes `playing`. -/
theorem c3_startGame_iff (s : GSState) (rid req : String) :
    ((gsStartGame rid req s).1 = true ↔
      ∃ room, List.lookup rid s.rooms = some room ∧ room.hostId = req ∧
        room.minPlayers ≤ room.players.length) ∧
    (∀ room, List.lookup rid s.rooms = some room → room.hostId = req →
      room.minPlayers ≤ room.players.length →
      (List.lookup rid (gsStartGame rid req s).2.rooms).map GameRoom.status
        = some RoomStatus.playing) := by
  constructor
  · constructor
    · intro h
      unfold gsStartGame at h
      split at h
      · exact absurd h (by simp)
      · rename_i room hl
        split at h
        · exact absurd h (by simp)
        · split at h
          · exact absurd h (by simp)
          · rename_i hhost hmin
            exact ⟨room, hl, by simpa using hhost, by omega⟩
    · rintro ⟨room, hl, hhost, hmin⟩
      simp only [gsStartGame, hl]
      rw [if_neg (by simp [hhost]), if_neg (by omega)]
  · intro room hl hhost hmin
    simp only [gsStartGame, hl]
    rw [if_neg (by simp [hhost]), if_neg (by omega)]
    simp [lookup_setA_self]

/-- C3 witness: on the concrete one-member room with `minPlayers = 1`, the
host's `startGame` succeeds and flips the status to `playing`. -/
theorem c3_startGame_iff_witness :
    (gsStartGame "S" "H" gsPrePlaying).1 = true ∧
    (List.lookup "S" (gsStartGame "S" "H" gsPrePlaying).2.rooms).map GameRoom.status
      = some RoomStatus.playing :=
  ⟨(c3_startGame_iff gsPrePlaying "S" "H").1.mpr
      ⟨gsPrePlayingRoom, by decide, by decide, by decide⟩,
   (c3_startGame_iff gsPrePlaying "S" "H").2 gsPrePlayingRoom
      (by decide) (by decide) (by decide)⟩

/-! ## Claim C4 — rejoining with the same player id -/

/-- C4, counterexample: a reachable room at capacity (`maxPlayers = 1`)
holding exactly player `"H"`; `"H"`'s rejoin returns failure, because
`joinRoom` checks `players.size >= maxPlayers` *before* the
already-in-roster reconnect path. The claim "calling join again with that
same player id returns success" is therefore false as stated. -/
theorem c4_counterexample :
    GSReach gsFullRoom ∧
    (List.lookup "F" gsFullRoom.rooms).map
      (fun r => (r.players.map Prod.fst, r.maxPlayers)) = some (["H"], 1) ∧
    (gsJoinRoom "F" "H" "Hank" 2 none 2 gsFullRoom).1 = false :=
  ⟨GSReach.join "F" "H" "Hank" 1 none 1
      (GSReach.create "F" "r" 1 1 false none "H" 0 GSReach.init),
   by decide, by decide⟩

/-- C4 (amended): provided the earlier checks pass — the room exists, the
password check passes, and the roster is *below* `maxPlayers` — a join by
an id already in the roster succeeds, leaves the roster keys (hence its
size, with no duplicate entry) unchanged, and rebinds both the roster
entry's `ws` handle and the connection index to the new connection. -/
theorem c4_rejoin_idempotent (s : GSState) (rid pid nm : String) (ws : Nat)
    (pw : Option String) (now : Nat) (room : GameRoom) (ex : WsPlayer)
    (hroom : List.lookup rid s.rooms = some room)
    (hpw : (room.isPrivate && room.password != pw) = false)
    (hcap : room.players.length < room.maxPlayers)
    (hex : List.lookup pid room.players = some ex) :
    (gsJoinRoom rid pid nm ws pw now s).1 = true ∧
    ∃ room',
      List.lookup rid (gsJoinRoom rid pid nm ws pw now s).2.rooms = some room' ∧
      room'.players.length = room.players.length ∧
      room'.players.map Prod.fst = room.players.map Prod.fst ∧
      List.lookup pid room'.players = some { ex with ws := some ws } ∧
      List.lookup ws (gsJoinRoom rid pid nm ws pw now s).2.connections
        = some (pid, some rid) := by
  have hsome : (List.lookup pid room.players).isSome := by rw [hex]; rfl
  simp only [gsJoinRoom, hroom, hex]
  rw [if_neg (by simp [hpw]), if_neg (by omega)]
  exact ⟨rfl, _, lookup_setA_self _ _ _,
    length_setA_of_lookup hsome, keys_setA_of_lookup hsome,
    lookup_setA_self _ _ _, lookup_setA_self _ _ _⟩

/-- C4 witness: concrete rejoin of `"P"` into the one-member room `"W"` on
a new connection `6`. -/
theorem c4_rejoin_idempotent_witness :
    (gsJoinRoom "W" "P" "Pat" 6 none 9 gsOneMember).1 = true ∧
    ∃ room',
      List.lookup "W" (gsJoinRoom "W" "P" "Pat" 6 none 9 gsOneMember).2.rooms
        = some room' ∧
      room'.players.length = gsOneMemberRoom.players.length ∧
      room'.players.map Prod.fst = gsOneMemberRoom.players.map Prod.fst ∧
      List.lookup "P" room'.players = some { gsOneMemberPat with ws := some 6 } ∧
      List.lookup 6 (gsJoinRoom "W" "P" "Pat" 6 none 9 gsOneMember).2.connections
        = some ("P", some "W") :=
  c4_rejoin_idempotent gsOneMember "W" "P" "Pat" 6 none 9 gsOneMemberRoom
    gsOneMemberPat (by decide) (by decide) (by decide) (by decide)

/-! ## Claim C5 — chat-message deduplication -/

/-- C5, counterexample: posting the same `clientMessageId` `"m1"` twice
into a reachable room leaves *two* ChatEntries with that id — the claim's
"exactly one ChatEntry" is false: `addChatMessage` has no deduplication. -/
theorem c5_counterexample :
    GSReach gsDupChat ∧
    (List.lookup "C" gsDupChat.rooms).map
      (fun r => (r.chatMessages.filter (fun m => m.id == "m1")).length) = some 2 :=
  ⟨GSReach.chat "C" "Alice" "hi" "m1" 2
      (GSReach.chat "C" "Alice" "hi" "m1" 1
        (GSReach.create "C" "r" 10 4 false none "H" 0 GSReach.init)),
   by decide⟩

/-- C5 (amended): `addChatMessage` appends unconditionally, so posting the
same `clientMessageId` twice adds exactly two entries bearing that id to
the room's chat log (the second call appends a duplicate rather than
returning the existing entry). -/
theorem c5_chat_no_dedup (s : GSState) (rid sender msg mid : String)
    (t₁ t₂ : Nat) (room : GameRoom)
    (hroom : List.lookup rid s.rooms = some room) :
    ∃ room',
      List.lookup rid
        (gsAddChatMessage rid sender msg mid t₂
          (gsAddChatMessage rid sender msg mid t₁ s)).rooms = some room' ∧
      (room'.chatMessages.filter (fun m => m.id == mid)).length
        = (room.chatMessages.filter (fun m => m.id == mid)).length + 2 := by
  simp only [gsAddChatMessage, hroom, lookup_setA_self]
  exact ⟨_, rfl, by simp [List.filter_append]⟩

/-- C5 witness: the two concrete `"m1"` posts into room `"C"`. -/
theorem c5_chat_no_dedup_witness :
    ∃ room',
      List.lookup "C"
        (gsAddChatMessage "C" "Alice" "hi" "m1" 2
          (gsAddChatMessage "C" "Alice" "hi" "m1" 1
            (gsCreateRoom "C" "r" 10 4 false none "H" 0 gsInit))).rooms = some room' ∧
      (room'.chatMessages.filter (fun m => m.id == "m1")).length
        = ((((gsCreateRoom "C" "r" 10 4 false none "H" 0 gsInit).rooms.lookup
            "C").getD arbRoom).chatMessages.filter (fun m => m.id == "m1")).length
          + 2 :=
  c5_chat_no_dedup (gsCreateRoom "C" "r" 10 4 false none "H" 0 gsInit)
    "C" "Alice" "hi" "m1" 1 2
    (((gsCreateRoom "C" "r" 10 4 false none "H" 0 gsInit).rooms.lookup "C").getD arbRoom)
    (by decide)

/-! ## Claim C7 — host succession -/

/-- C7: when a roster member holding the host flag leaves and the roster
remains non-empty, the room keeps exactly the remaining members in their
original join order, the first of them — the earliest-joined remaining
player — receives the host flag, and the room's `hostId` becomes that
player's id. (`eraseA pid room.players` is the roster in `Map` insertion
order with the leaver removed, so its head is the earliest-joined
remaining member; `leaveRoom` is a pure function of its arguments, hence
deterministic for any given join sequence.) -/
theorem c7_host_succession (s : GSState) (rid pid : String) (now : Nat)
    (room : GameRoom) (player : WsPlayer) (k₀ : String) (p₀ : WsPlayer)
    (rest : List (String × WsPlayer))
    (hroom : List.lookup rid s.rooms = some room)
    (hpl : List.lookup pid room.players = some player)
    (hhost : player.isHost = true)
    (herase : eraseA pid room.players = (k₀, p₀) :: rest) :
    ∃ room',
      List.lookup rid (gsLeaveRoom pid (some rid) now s).rooms = some room' ∧
      room'.hostId = p₀.id ∧
      room'.players = (k₀, { p₀ with isHost := true }) :: rest ∧
      room'.players.head? = some (k₀, { p₀ with isHost := true }) := by
  simp only [gsLeaveRoom, hroom, hpl, herase, hhost, if_true]
  exact ⟨_, lookup_setA_self _ _ _, rfl, rfl, rfl⟩

/-- C7 witness: `P1` (host) leaves the three-member room; the earliest
remaining joiner `P2` becomes host, keeping join order `[P2, P3]`. -/
theorem c7_host_succession_witness :
    ∃ room',
      List.lookup "H7" (gsLeaveRoom "P1" (some "H7") 4 gsTrio).rooms = some room' ∧
      room'.hostId = gsTrioBen.id ∧
      room'.players = ("P2", { gsTrioBen with isHost := true }) :: [("P3", gsTrioCal)] ∧
      room'.players.head? = some ("P2", { gsTrioBen with isHost := true }) :=
  c7_host_succession gsTrio "H7" "P1" 4 gsTrioRoom gsTrioAnn "P2" gsTrioBen
    [("P3", gsTrioCal)] (by decide) (by decide) (by decide) (by decide)

/-! ## Claim C8 — creation-time clamping -/

/-- C8, counterexample: (i) supplying `minPlayers = 8, maxPlayers = 4`
creates a room whose stored `minPlayers` (8) exceeds its stored
`maxPlayers` (4) — the two bounds are clamped independently, so the
claim's "minPlayers ≤ maxPlayers after clamping" is false; (ii) supplying
`maxPlayers = 0` (out of range) makes the call fail with the
missing-required-fields error (`!maxPlayers` treats 0 as absent), so "the
call never fails on out-of-range bounds" is also false. -/
theorem c8_counterexample :
    ((createCore "g" "RC" 0 (some "Alice") (some "Room") (some 4) (some 8) false none
        hInit).2.rooms.map (fun r => (r.2.minPlayers, r.2.maxPlayers))) = [(8, 4)] ∧
    ¬((8 : Int) ≤ 4) ∧
    (createCore "g" "RC" 0 (some "Alice") (some "Room") (some 0) none false none
        hInit).1.success = false :=
  ⟨by decide, by decide, by decide⟩

/-- C8 (amended): for any supplied bounds with a truthy `maxPlayers` (and
the unrelated guards passing: registry below the room cap, non-blank
names), create succeeds and stores `minPlayers` clamped into `[4, 8]` and
`maxPlayers` clamped into `[4, 10]`; a falsy `maxPlayers` (absent or `0`)
is instead rejected as a missing field, and the stored `minPlayers` may
exceed the stored `maxPlayers`. -/
theorem c8_create_clamps (gen code : String) (now : Nat)
    (pn rn : Option String) (maxP minP : Option Int) (priv : Bool)
    (pw : Option String) (s : HState)
    (hcap : s.rooms.length < 100)
    (hrn : strTrim (rn.getD "") ≠ "") (hpn : strTrim (pn.getD "") ≠ "")
    (hmax₁ : maxP ≠ none) (hmax₂ : maxP ≠ some 0) :
    (createCore gen code now pn rn maxP minP priv pw s).1.success = true ∧
    ∃ room,
      List.lookup code (createCore gen code now pn rn maxP minP priv pw s).2.rooms
        = some room ∧
      4 ≤ room.minPlayers ∧ room.minPlayers ≤ 8 ∧
      4 ≤ room.maxPlayers ∧ room.maxPlayers ≤ 10 := by
  unfold createCore
  rw [if_neg (by omega), if_neg (by simp [hrn, hpn, hmax₁, hmax₂])]
  exact ⟨rfl, _, lookup_setA_self _ _ _,
    (clampMin_bounds minP).1, (clampMin_bounds minP).2,
    (clampMax_bounds (maxP.getD 0)).1, (clampMax_bounds (maxP.getD 0)).2⟩

/-- C8 witness: create with wildly out-of-range bounds `min = -5`,
`max = 99`; the call succeeds and the stored bounds are clamped. -/
theorem c8_create_clamps_witness :
    (createCore "w" "RW" 0 (some "Ann") (some "Wide") (some 99) (some (-5)) false none
        hInit).1.success = true ∧
    ∃ room,
      List.lookup "RW" (createCore "w" "RW" 0 (some "Ann") (some "Wide") (some 99)
          (some (-5)) false none hInit).2.rooms = some room ∧
      4 ≤ room.minPlayers ∧ room.minPlayers ≤ 8 ∧
      4 ≤ room.maxPlayers ∧ room.maxPlayers ≤ 10 :=
  c8_create_clamps "w" "RW" 0 (some "Ann") (some "Wide") (some 99) (some (-5)) false
    none hInit (by decide) (by decide) (by decide) (by decide) (by decide)

/-! ## Claim C10 — idempotence of leave at the public interface -/

/-- C10, counterexample: the empty string is a player id that is not
present in the player directory (ids are never empty: a falsy supplied id
is replaced by a generated one), yet DELETE with `playerId = ""` returns
the missing-player-id *error* response, not success — the claim quantifies
over every absent id and is false at `""`. -/
theorem c10_counterexample :
    List.lookup "" hInit.players = none ∧
    (deleteLeave (some "") 0 hInit).1.success = false :=
  ⟨by decide, by decide⟩

/-- C10 (amended): for every *non-empty* player id absent from the
directory, DELETE returns success and leaves the rooms and players maps
completely unchanged; a missing or empty `playerId` is instead rejected
with the missing-id error, also leaving the state unchanged. -/
theorem c10_delete_unknown_idempotent :
    (∀ (s : HState) (now : Nat) (pid : String), pid ≠ "" →
      List.lookup pid s.players = none →
      deleteLeave (some pid) now s = ({ success := true }, s)) ∧
    (∀ (s : HState) (now : Nat),
      deleteLeave none now s
          = ({ success := false, error := some "Отсутствует ID игрока" }, s) ∧
      deleteLeave (some "") now s
          = ({ success := false, error := some "Отсутствует ID игрока" }, s)) := by
  refine ⟨?_, ?_⟩
  · intro s now pid hne h
    simp [deleteLeave, hne, h]
  · intro s now
    constructor <;> simp [deleteLeave]

/-- C10 witness: deleting the unknown id `"ghost"` from the one-room store
returns success and the very same state. -/
theorem c10_delete_unknown_idempotent_witness :
    deleteLeave (some "ghost") 7 hOne = ({ success := true }, hOne) :=
  c10_delete_unknown_idempotent.1 hOne 7 "ghost" (by decide) (by decide)

/-! ## Claim C6 — join rejection order -/

/-- C6, counterexample: the claim quantifies over *every* join request and
cites `GameServer.joinRoom`, but that handler performs only the first
three checks — it never checks the room's status and never checks for a
duplicate display name. Concretely reachable: (i) a websocket join of a
fresh id into room `"S"` whose status is `playing` succeeds, where the
claim demands a status-is-not-waiting rejection; (ii) after id `"A"`
joins room `"N"` as `"Alice"`, a second id `"B"` joins with the same
display name and succeeds, leaving two `"Alice"` roster entries, where
the claim demands a duplicate-name rejection. -/
theorem c6_counterexample :
    GSReach gsPlaying ∧
    (List.lookup "S" gsPlaying.rooms).map GameRoom.status
      = some RoomStatus.playing ∧
    (gsJoinRoom "S" "X" "Xena" 7 none 5 gsPlaying).1 = true ∧
    GSReach gsTwoNames ∧
    (List.lookup "N" gsTwoNames.rooms).map
      (fun r => (r.players.map (fun e => e.2.name), r.players.length))
      = some (["Alice", "Alice"], 2) :=
  ⟨GSReach.start "S" "H"
      (GSReach.join "S" "H" "Hank" 1 none 1
        (GSReach.create "S" "r" 10 1 false none "H" 0 GSReach.init)),
   by decide, by decide,
   GSReach.join "N" "B" "Alice" 2 none 2
      (GSReach.join "N" "A" "Alice" 1 none 1
        (GSReach.create "N" "n" 10 4 false none "HN" 0 GSReach.init)),
   by decide⟩

/-- C6 (amended): in the HTTP POST join handler the rejection reasons are
checked exactly in the order: room not found; wrong secret for a private
room; roster at `maxPlayers`; status not `waiting`; duplicate display name
held by a different player id (the reconnect path for the *same* id
precedes the name check). Each conjunct fixes only the earlier checks and
lets every later condition vary, so a request failing an earlier condition
reports that reason even when later conditions also fail. The websocket
`joinRoom` performs only the first three of these checks and accepts a
join that only the status or duplicate-name condition would reject. -/
theorem c6_join_check_order (gen : String) (now : Nat)
    (roomIdO pidO nameO pwO : Option String) (s : HState)
    (hrid : strTrim (roomIdO.getD "") ≠ "") (hnm : strTrim (nameO.getD "") ≠ "") :
    (List.lookup (strTrim (roomIdO.getD "")) s.rooms = none →
      (joinCore gen now roomIdO pidO nameO pwO s).1
        = { success := false, error := some "Комната не найдена" }) ∧
    (∀ room, List.lookup (strTrim (roomIdO.getD "")) s.rooms = some room →
      (room.isPrivate && room.password != pwO.map strTrim) = true →
      (joinCore gen now roomIdO pidO nameO pwO s).1
        = { success := false, error := some "Неверный пароль" }) ∧
    (∀ room, List.lookup (strTrim (roomIdO.getD "")) s.rooms = some room →
      (room.isPrivate && room.password != pwO.map strTrim) = false →
      room.maxPlayers ≤ (room.players.length : Int) →
      (joinCore gen now roomIdO pidO nameO pwO s).1
        = { success := false, error := some "Комната заполнена" }) ∧
    (∀ room, List.lookup (strTrim (roomIdO.getD "")) s.rooms = some room →
      (room.isPrivate && room.password != pwO.map strTrim) = false →
      ¬(room.maxPlayers ≤ (room.players.length : Int)) →
      room.status ≠ RoomStatus.waiting →
      (joinCore gen now roomIdO pidO nameO pwO s).1
        = { success := false, error := some "Игра уже началась" }) ∧
    (∀ room, List.lookup (strTrim (roomIdO.getD "")) s.rooms = some room →
      (room.isPrivate && room.password != pwO.map strTrim) = false →
      ¬(room.maxPlayers ≤ (room.players.length : Int)) →
      room.status = RoomStatus.waiting →
      room.players.contains (resolveId pidO gen) = false →
      hasDupName s room (strTrim (nameO.getD "")) = true →
      (joinCore gen now roomIdO pidO nameO pwO s).1
        = { success := false, error := some "Игрок с таким именем уже в комнате" }) := by
  refine ⟨?_, ?_, ?_, ?_, ?_⟩
  · intro h
    simp only [joinCore, h]
    rw [if_neg (by simp [hrid, hnm])]
  · intro room h hpw
    simp only [joinCore, h]
    rw [if_neg (by simp [hrid, hnm]), if_pos hpw]
  · intro room h hpw hfull
    simp only [joinCore, h]
    rw [if_neg (by simp [hrid, hnm]), if_neg (by simp [hpw]), if_pos hfull]
  · intro room h hpw hfull hst
    simp only [joinCore, h]
    rw [if_neg (by simp [hrid, hnm]), if_neg (by simp [hpw]), if_neg hfull,
      if_pos hst]
  · intro room h hpw hfull hst hmem hdup
    simp only [joinCore, h]
    rw [if_neg (by simp [hrid, hnm]), if_neg (by simp [hpw]), if_neg hfull,
      if_neg (by simp [hst]), if_neg (by simpa using hmem), if_pos hdup]

/-- C6 witness: concrete instances of the first and the last check —
joining an unknown room code reports "room not found", and joining room
`"J6"` (member `"Ann"`) under the name `"ann"` from a fresh id reports the
duplicate-name rejection. -/
theorem c6_join_check_order_witness :
    (joinCore "x" 1 (some "NOPE") none (some "Bob") none hOne).1
      = { success := false, error := some "Комната не найдена" } ∧
    (joinCore "h2" 1 (some "J6") (some "h2") (some "ann") none hOne).1
      = { success := false, error := some "Игрок с таким именем уже в комнате" } :=
  ⟨(c6_join_check_order "x" 1 (some "NOPE") none (some "Bob") none hOne
      (by decide) (by decide)).1 (by decide),
   (c6_join_check_order "h2" 1 (some "J6") (some "h2") (some "ann") none hOne
      (by decide) (by decide)).2.2.2.2 hOneRoom (by decide) (by decide)
      (by decide) (by decide) (by decide) (by decide)⟩

/-! ## Claim C1 — host-flag uniqueness -/

/-- Per-room invariant maintained by the `GameServer`: roster keys are
unique, and a non-empty roster has at least one member with the host
flag. -/
def gsRoomInv (room : GameRoom) : Prop :=
  (room.players.map Prod.fst).Nodup ∧
  (room.players ≠ [] → ∃ e ∈ room.players, e.2.isHost = true)

/-- The server-wide invariant: every registered room satisfies
`gsRoomInv`. -/
def gsInv (s : GSState) : Prop :=
  ∀ rid room, List.lookup rid s.rooms = some room → gsRoomInv room

theorem lookup_nonempty {α β : Type} [BEq α] {k : α} {l : List (α × β)} {v : β}
    (h : List.lookup k l = some v) : l ≠ [] := by
  intro h0
  rw [h0] at h
  simp at h

theorem gsInv_create (roomId name : String) (mx mn : Nat) (priv : Bool)
    (pw : Option String) (hostId : String) (now : Nat) {s : GSState}
    (h : gsInv s) : gsInv (gsCreateRoom roomId name mx mn priv pw hostId now s) := by
  intro rid room hlook
  simp only [gsCreateRoom] at hlook
  by_cases hr : rid = roomId
  · subst hr
    rw [lookup_setA_self] at hlook
    have hq := Option.some.inj hlook
    subst hq
    exact ⟨by simp, by simp⟩
  · rw [lookup_setA_ne roomId rid _ _ hr] at hlook
    exact h rid room hlook

theorem gsInv_join (rid pid nm : String) (ws : Nat) (pw : Option String)
    (now : Nat) {s : GSState} (h : gsInv s) :
    gsInv (gsJoinRoom rid pid nm ws pw now s).2 := by
  intro rid' room' hlook
  cases hl : List.lookup rid s.rooms with
  | none =>
    rw [show (gsJoinRoom rid pid nm ws pw now s).2 = s by
      simp [gsJoinRoom, hl]] at hlook
    exact h _ _ hlook
  | some room =>
    by_cases hpw : (room.isPrivate && room.password != pw) = true
    · rw [show (gsJoinRoom rid pid nm ws pw now s).2 = s by
        simp [gsJoinRoom, hl, hpw]] at hlook
      exact h _ _ hlook
    · by_cases hcap : room.maxPlayers ≤ room.players.length
      · rw [show (gsJoinRoom rid pid nm ws pw now s).2 = s by
          simp only [gsJoinRoom, hl]
          rw [if_neg hpw, if_pos hcap]] at hlook
        exact h _ _ hlook
      · cases hex : List.lookup pid room.players with
        | some ex =>
          rw [show (gsJoinRoom rid pid nm ws pw now s).2.rooms
              = setA rid
                  { room with players := setA pid { ex with ws := some ws } room.players }
                  s.rooms by
            simp only [gsJoinRoom, hl, hex]
            rw [if_neg hpw, if_neg hcap]] at hlook
          by_cases hr : rid' = rid
          · subst hr
            rw [lookup_setA_self] at hlook
            have hq := Option.some.inj hlook
            subst hq
            have hroom := h rid' room hl
            have hsome : (List.lookup pid room.players).isSome := by rw [hex]; rfl
            refine ⟨?_, ?_⟩
            · simpa [keys_setA_of_lookup hsome] using hroom.1
            · intro _
              obtain ⟨e, hm, hh⟩ := hroom.2 (lookup_nonempty hex)
              by_cases he : e.1 = pid
              · have hle := lookup_of_mem_nodup hroom.1 hm
                rw [he, hex] at hle
                have hexe := Option.some.inj hle
                refine ⟨(pid, { ex with ws := some ws }), self_mem_setA _ _ _, ?_⟩
                simpa [← hexe] using hh
              · exact ⟨e, mem_setA_of_mem hm he, hh⟩
          · rw [lookup_setA_ne rid rid' _ _ hr] at hlook
            exact h rid' room' hlook
        | none =>
          rw [show (gsJoinRoom rid pid nm ws pw now s).2.rooms
              = setA rid
                  { room with
                    players := room.players ++
                      [(pid,
                        { id := pid, name := nm, isAlive := true, isBot := false
                          isHost := room.players.length == 0 || pid == room.hostId
                          ws := some ws })]
                    chatMessages := room.chatMessages ++
                      [{ id := toString now, sender := "Система"
                         message := nm ++ " присоединился к игре"
                         timestamp := now, kind := .system }] }
                  s.rooms by
            simp only [gsJoinRoom, hl, hex]
            rw [if_neg hpw, if_neg hcap]] at hlook
          by_cases hr : rid' = rid
          · subst hr
            rw [lookup_setA_self] at hlook
            have hq := Option.some.inj hlook
            subst hq
            have hroom := h rid' room hl
            have hkeys : pid ∉ room.players.map Prod.fst :=
              lookup_none_iff_keys.mp hex
            refine ⟨?_, ?_⟩
            · simp [List.nodup_append, hroom.1, hkeys]
            · intro _
              cases hp0 : room.players with
              | nil =>
                exact ⟨(pid,
                  { id := pid, name := nm, isAlive := true, isBot := false
                    isHost := List.length [] == 0 || pid == room.hostId
                    ws := some ws }),
                  List.mem_append_right _ (List.mem_singleton.mpr rfl), rfl⟩
              | cons a as =>
                obtain ⟨e, hm, hh⟩ := hroom.2 (by simp [hp0])
                exact ⟨e, List.mem_append_left _ (hp0 ▸ hm), hh⟩
          · rw [lookup_setA_ne rid rid' _ _ hr] at hlook
            exact h rid' room' hlook

theorem gsInv_leave (pid : String) (rido : Option String) (now : Nat)
    {s : GSState} (h : gsInv s) : gsInv (gsLeaveRoom pid rido now s) := by
  intro rid' room' hlook
  cases rido with
  | none => exact h _ _ hlook
  | some rid =>
    cases hl : List.lookup rid s.rooms with
    | none =>
      rw [show gsLeaveRoom pid (some rid) now s = s by
        simp [gsLeaveRoom, hl]] at hlook
      exact h _ _ hlook
    | some room =>
      cases hpl : List.lookup pid room.players with
      | none =>
        rw [show gsLeaveRoom pid (some rid) now s = s by
          simp [gsLeaveRoom, hl, hpl]] at hlook
        exact h _ _ hlook
      | some player =>
        cases herase : eraseA pid room.players with
        | nil =>
          rw [show (gsLeaveRoom pid (some rid) now s).rooms = eraseA rid s.rooms by
            simp [gsLeaveRoom, hl, hpl, herase]] at hlook
          by_cases hr : rid' = rid
          · subst hr
            rw [lookup_eraseA_self] at hlook
            cases hlook
          · rw [lookup_eraseA_ne rid rid' _ hr] at hlook
            exact h rid' room' hlook
        | cons hd rest =>
          obtain ⟨k₀, p₀⟩ := hd
          have hroom := h rid room hl
          have hkeysE : ((eraseA pid room.players).map Prod.fst).Nodup :=
            (keys_eraseA_sublist pid room.players).nodup hroom.1
          rw [herase] at hkeysE
          by_cases hh : player.isHost
          · rw [show (gsLeaveRoom pid (some rid) now s).rooms
                = setA rid
                    { room with
                      hostId := p₀.id
                      players := (k₀, { p₀ with isHost := true }) :: rest
                      chatMessages := room.chatMessages ++
                        [{ id := toString now, sender := "Система"
                           message := player.name ++ " покинул игру"
                           timestamp := now, kind := .system }] }
                    s.rooms by
              simp [gsLeaveRoom, hl, hpl, herase, hh]] at hlook
            by_cases hr : rid' = rid
            · subst hr
              rw [lookup_setA_self] at hlook
              have hq := Option.some.inj hlook
              subst hq
              refine ⟨by simpa using hkeysE, ?_⟩
              intro _
              exact ⟨(k₀, { p₀ with isHost := true }), by simp, by simp⟩
            · rw [lookup_setA_ne rid rid' _ _ hr] at hlook
              exact h rid' room' hlook
          · rw [show (gsLeaveRoom pid (some rid) now s).rooms
                = setA rid
                    { room with
                      players := (k₀, p₀) :: rest
                      chatMessages := room.chatMessages ++
                        [{ id := toString now, sender := "Система"
                           message := player.name ++ " покинул игру"
                           timestamp := now, kind := .system }] }
                    s.rooms by
              simp [gsLeaveRoom, hl, hpl, herase, hh]] at hlook
            by_cases hr : rid' = rid
            · subst hr
              rw [lookup_setA_self] at hlook
              have hq := Option.some.inj hlook
              subst hq
              refine ⟨by simpa using hkeysE, ?_⟩
              intro _
              obtain ⟨e, hm, hhe⟩ := hroom.2 (lookup_nonempty hpl)
              have hne : e.1 ≠ pid := by
                intro hc
                have hle := lookup_of_mem_nodup hroom.1 hm
                rw [hc, hpl] at hle
                have hep := Option.some.inj hle
                rw [hep] at hh
                exact hh hhe
              have hmE : e ∈ eraseA pid room.players := mem_eraseA.mpr ⟨hm, hne⟩
              rw [herase] at hmE
              exact ⟨e, by simpa using hmE, hhe⟩
            · rw [lookup_setA_ne rid rid' _ _ hr] at hlook
              exact h rid' room' hlook

theorem gsInv_chat (rid sender msg mid : String) (now : Nat) {s : GSState}
    (h : gsInv s) : gsInv (gsAddChatMessage rid sender msg mid now s) := by
  intro rid' room' hlook
  cases hl : List.lookup rid s.rooms with
  | none =>
    rw [show gsAddChatMessage rid sender msg mid now s = s by
      simp [gsAddChatMessage, hl]] at hlook
    exact h _ _ hlook
  | some room =>
    rw [show (gsAddChatMessage rid sender msg mid now s).rooms
        = setA rid
            { room with
              chatMessages := room.chatMessages ++
                [{ id := mid, sender := sender, message := msg
                   timestamp := now, kind := .user }] }
            s.rooms by
      simp [gsAddChatMessage, hl]] at hlook
    by_cases hr : rid' = rid
    · subst hr
      rw [lookup_setA_self] at hlook
      have hq := Option.some.inj hlook
      subst hq
      exact ⟨(h rid' room hl).1, (h rid' room hl).2⟩
    · rw [lookup_setA_ne rid rid' _ _ hr] at hlook
      exact h rid' room' hlook

theorem gsInv_start (rid req : String) {s : GSState} (h : gsInv s) :
    gsInv (gsStartGame rid req s).2 := by
  intro rid' room' hlook
  cases hl : List.lookup rid s.rooms with
  | none =>
    rw [show (gsStartGame rid req s).2 = s by simp [gsStartGame, hl]] at hlook
    exact h _ _ hlook
  | some room =>
    by_cases hhost : (room.hostId != req) = true
    · rw [show (gsStartGame rid req s).2 = s by
        simp only [gsStartGame, hl]
        rw [if_pos hhost]] at hlook
      exact h _ _ hlook
    · by_cases hmin : room.players.length < room.minPlayers
      · rw [show (gsStartGame rid req s).2 = s by
          simp only [gsStartGame, hl]
          rw [if_neg hhost, if_pos hmin]] at hlook
        exact h _ _ hlook
      · rw [show (gsStartGame rid req s).2.rooms
            = setA rid { room with status := .playing } s.rooms by
          simp only [gsStartGame, hl]
          rw [if_neg hhost, if_neg hmin]] at hlook
        by_cases hr : rid' = rid
        · subst hr
          rw [lookup_setA_self] at hlook
          have hq := Option.some.inj hlook
          subst hq
          exact ⟨(h rid' room hl).1, (h rid' room hl).2⟩
        · rw [lookup_setA_ne rid rid' _ _ hr] at hlook
          exact h rid' room' hlook

/-- Every reachable `GameServer` state satisfies the invariant. -/
theorem gsInv_reach {s : GSState} (h : GSReach s) : gsInv s := by
  induction h with
  | init => intro rid room hlook; simp [gsInit] at hlook
  | create roomId name mx mn priv pw hostId now _ ih =>
    exact gsInv_create roomId name mx mn priv pw hostId now ih
  | join roomId playerId playerName ws password now _ ih =>
    exact gsInv_join roomId playerId playerName ws password now ih
  | leave playerId roomId now _ ih => exact gsInv_leave playerId roomId now ih
  | chat roomId sender message messageId now _ ih =>
    exact gsInv_chat roomId sender message messageId now ih
  | start roomId hostId _ ih => exact gsInv_start roomId hostId ih

/-- C1, counterexample: a reachable state (create with recorded host `"H"`,
join `"A"`, join `"H"`) whose room `"R"` has a 2-member roster on which
*two* members carry the host flag — `joinRoom` grants the flag both to the
first joiner of an empty roster and to any joiner whose id equals the
recorded `hostId`; "exactly one" is false. -/
theorem c1_counterexample :
    GSReach gsTwoHosts ∧
    (List.lookup "R" gsTwoHosts.rooms).map
      (fun room => ((room.players.filter (fun e => e.2.isHost)).length,
        room.players.length)) = some (2, 2) :=
  ⟨GSReach.join "R" "H" "Bob" 2 none 2
      (GSReach.join "R" "A" "Alice" 1 none 1
        (GSReach.create "R" "room" 10 4 false none "H" 0 GSReach.init)),
   by decide⟩

/-- C1 (amended): at every reachable `GameServer` state, every room with a
non-empty roster has *at least one* member carrying the host flag (after
any sequence of createRoom, join, leave, chat and start operations); more
than one host is reachable, because `joinRoom` also grants the flag to a
joiner whose id equals the room's recorded `hostId` while another member
already holds it. -/
theorem c1_nonempty_roster_has_host (s : GSState) (h : GSReach s)
    (rid : String) (room : GameRoom)
    (hroom : List.lookup rid s.rooms = some room) (hne : room.players ≠ []) :
    ∃ e ∈ room.players, e.2.isHost = true :=
  (gsInv_reach h rid room hroom).2 hne

/-- C1 witness: the reachable one-member room `"W"` has a host. -/
theorem c1_nonempty_roster_has_host_witness :
    ∃ e ∈ gsOneMemberRoom.players, e.2.isHost = true :=
  c1_nonempty_roster_has_host gsOneMember
    (GSReach.join "W" "P" "Pat" 5 none 3
      (GSReach.create "W" "w" 8 4 false none "P" 3 GSReach.init))
    "W" gsOneMemberRoom (by decide) (by decide)

/-! ## Claim C2 — roster-size bounds -/

/-- Per-room bounds maintained by the HTTP rooms registry. -/
def hRoomBounds (room : HRoom) : Prop :=
  1 ≤ room.players.length ∧ (room.players.length : Int) ≤ room.maxPlayers

/-- Registry-wide bounds invariant. -/
def hInv (s : HState) : Prop :=
  ∀ rid room, List.lookup rid s.rooms = some room → hRoomBounds room

theorem hInv_erase_rooms {t : HState} (k : String) (h : hInv t) :
    hInv { t with rooms := eraseA k t.rooms } := by
  intro rid room hl
  by_cases hr : rid = k
  · subst hr
    rw [lookup_eraseA_self] at hl
    cases hl
  · rw [lookup_eraseA_ne k rid _ hr] at hl
    exact h _ _ hl

theorem hInv_removeStale (now : Nat) (pid : String) (player : HPlayer)
    {t : HState} (h : hInv t) : hInv (removeStalePlayer now pid player t) := by
  cases hrid : player.roomId with
  | none =>
    rw [show removeStalePlayer now pid player t
        = { t with players := eraseA pid t.players } by
      simp [removeStalePlayer, hrid]]
    exact fun rid room hl => h rid room hl
  | some rid =>
    cases hl : List.lookup rid t.rooms with
    | none =>
      rw [show removeStalePlayer now pid player t
          = { t with players := eraseA pid t.players } by
        simp [removeStalePlayer, hrid, hl]]
      exact fun rid' room hl' => h rid' room hl'
    | some room =>
      have hb := h rid room hl
      cases hfil : room.players.filter (fun q => q != pid) with
      | nil =>
        intro rid' room' hl'
        rw [show (removeStalePlayer now pid player t).rooms
            = eraseA rid t.rooms by
          simp [removeStalePlayer, hrid, hl, hfil]] at hl'
        by_cases hr : rid' = rid
        · subst hr
          rw [lookup_eraseA_self] at hl'
          cases hl'
        · rw [lookup_eraseA_ne rid rid' _ hr] at hl'
          exact h rid' room' hl'
      | cons h₀ t₀ =>
        have hlen : (((h₀ :: t₀ : List String)).length : Int) ≤ room.maxPlayers := by
          rw [← hfil]
          exact le_trans (by exact_mod_cast List.length_filter_le _ _) hb.2
        by_cases hhost : room.hostId = pid
        · intro rid' room' hl'
          rw [show (removeStalePlayer now pid player t).rooms
              = setA rid
                  { room with
                    hostId := h₀
                    players := h₀ :: t₀
                    chatMessages := room.chatMessages ++
                      [{ id := "system-" ++ toString now, sender := "Система"
                         message := "Игрок " ++ player.name ++ " отключился"
                         timestamp := now, kind := .system }] }
                  t.rooms by
            simp [removeStalePlayer, hrid, hl, hfil, hhost]] at hl'
          by_cases hr : rid' = rid
          · subst hr
            rw [lookup_setA_self] at hl'
            have hq := Option.some.inj hl'
            subst hq
            exact ⟨by simp, hlen⟩
          · rw [lookup_setA_ne rid rid' _ _ hr] at hl'
            exact h rid' room' hl'
        · intro rid' room' hl'
          rw [show (removeStalePlayer now pid player t).rooms
              = setA rid
                  { room with
                    players := h₀ :: t₀
                    chatMessages := room.chatMessages ++
                      [{ id := "system-" ++ toString now, sender := "Система"
                         message := "Игрок " ++ player.name ++ " отключился"
                         timestamp := now, kind := .system }] }
                  t.rooms by
            simp [removeStalePlayer, hrid, hl, hfil, hhost]] at hl'
          by_cases hr : rid' = rid
          · subst hr
            rw [lookup_setA_self] at hl'
            have hq := Option.some.inj hl'
            subst hq
            exact ⟨by simp, hlen⟩
          · rw [lookup_setA_ne rid rid' _ _ hr] at hl'
            exact h rid' room' hl'

theorem hInv_playerStep (now : Nat) (k : String) {t : HState} (h : hInv t) :
    hInv (cleanupPlayerStep now t k) := by
  cases hl : List.lookup k t.players with
  | none =>
    rw [show cleanupPlayerStep now t k = t by simp [cleanupPlayerStep, hl]]
    exact h
  | some player =>
    by_cases hs : staleTimeout < now - player.lastSeen
    · rw [show cleanupPlayerStep now t k = removeStalePlayer now k player t by
        simp [cleanupPlayerStep, hl, hs]]
      exact hInv_removeStale now k player h
    · rw [show cleanupPlayerStep now t k = t by simp [cleanupPlayerStep, hl, hs]]
      exact h

theorem hInv_playerSweep (now : Nat) (ks : List String) {t : HState}
    (h : hInv t) : hInv (ks.foldl (cleanupPlayerStep now) t) := by
  induction ks generalizing t with
  | nil => exact h
  | cons k ks ih => exact ih (hInv_playerStep now k h)

theorem hInv_roomStep (now : Nat) (k : String) {t : HState} (h : hInv t) :
    hInv (cleanupRoomStep now t k) := by
  cases hl : List.lookup k t.rooms with
  | none =>
    rw [show cleanupRoomStep now t k = t by simp [cleanupRoomStep, hl]]
    exact h
  | some room =>
    by_cases hc : room.players.length = 0 ∨ staleTimeout < now - room.lastUpdate
    · rw [show cleanupRoomStep now t k = { t with rooms := eraseA k t.rooms } by
        simp only [cleanupRoomStep, hl]
        rw [if_pos hc]]
      exact hInv_erase_rooms k h
    · rw [show cleanupRoomStep now t k = t by
        simp only [cleanupRoomStep, hl]
        rw [if_neg hc]]
      exact h

theorem hInv_roomSweep (now : Nat) (ks : List String) {t : HState}
    (h : hInv t) : hInv (ks.foldl (cleanupRoomStep now) t) := by
  induction ks generalizing t with
  | nil => exact h
  | cons k ks ih => exact ih (hInv_roomStep now k h)

theorem hInv_capFold (ks : List String) {t : HState} (h : hInv t) :
    hInv (ks.foldl (fun st k => { st with rooms := eraseA k st.rooms }) t) := by
  induction ks generalizing t with
  | nil => exact h
  | cons k ks ih => exact ih (hInv_erase_rooms k h)

theorem hInv_cap {t : HState} (h : hInv t) : hInv (cleanupCap t) := by
  unfold cleanupCap
  by_cases hc : 100 < t.rooms.length
  · rw [if_pos hc]
    exact hInv_capFold _ h
  · rw [if_neg hc]
    exact h

theorem hInv_cleanup (now : Nat) {t : HState} (h : hInv t) :
    hInv (cleanup now t) :=
  hInv_cap (hInv_roomSweep now _ (hInv_playerSweep now _ h))

theorem hInv_createCore (genPlayerId genRoomCode : String) (now : Nat)
    (playerName roomName : Option String) (maxPlayers minPlayers : Option Int)
    (isPrivate : Bool) (password : Option String) {s : HState} (h : hInv s) :
    hInv (createCore genPlayerId genRoomCode now playerName roomName maxPlayers
      minPlayers isPrivate password s).2 := by
  unfold createCore
  by_cases hc : 100 ≤ s.rooms.length
  · rw [if_pos hc]
    exact h
  · rw [if_neg hc]
    by_cases hm : strTrim (roomName.getD "") = "" ∨ strTrim (playerName.getD "") = ""
        ∨ maxPlayers = none ∨ maxPlayers = some 0
    · rw [if_pos hm]
      exact h
    · rw [if_neg hm]
      intro rid room hl
      by_cases hr : rid = genRoomCode
      · subst hr
        rw [lookup_setA_self] at hl
        have hq := Option.some.inj hl
        subst hq
        refine ⟨by simp, ?_⟩
        have h4 := (clampMax_bounds (maxPlayers.getD 0)).1
        simp only [List.length_cons, List.length_nil]
        push_cast
        omega
      · rw [lookup_setA_ne genRoomCode rid _ _ hr] at hl
        exact h _ _ hl

theorem hInv_joinCore (genPlayerId : String) (now : Nat)
    (roomId playerId playerName password : Option String) {s : HState}
    (h : hInv s) :
    hInv (joinCore genPlayerId now roomId playerId playerName password s).2 := by
  by_cases hm : strTrim (roomId.getD "") = "" ∨ strTrim (playerName.getD "") = ""
  · rw [show (joinCore genPlayerId now roomId playerId playerName password s).2 = s by
      simp [joinCore, hm]]
    exact h
  · cases hl : List.lookup (strTrim (roomId.getD "")) s.rooms with
    | none =>
      rw [show (joinCore genPlayerId now roomId playerId playerName password s).2 = s by
        simp [joinCore, hm, hl]]
      exact h
    | some room =>
      by_cases hpw : (room.isPrivate && room.password != password.map strTrim) = true
      · rw [show (joinCore genPlayerId now roomId playerId playerName password s).2 = s by
          simp [joinCore, hm, hl, hpw]]
        exact h
      · by_cases hful : room.maxPlayers ≤ (room.players.length : Int)
        · rw [show (joinCore genPlayerId now roomId playerId playerName password s).2 = s by
            simp [joinCore, hm, hl, hpw, hful]]
          exact h
        · by_cases hst : room.status = RoomStatus.waiting
          · by_cases hmem : (resolveId playerId genPlayerId) ∈ room.players
            · intro rid' room' hl'
              rw [show (joinCore genPlayerId now roomId playerId playerName password s).2.rooms
                  = s.rooms by
                simp [joinCore, hm, hl, hpw, hful, hst, hmem]] at hl'
              exact h rid' room' hl'
            · by_cases hdup : hasDupName s room (strTrim (playerName.getD "")) = true
              · rw [show (joinCore genPlayerId now roomId playerId playerName password s).2
                    = s by
                  simp [joinCore, hm, hl, hpw, hful, hst, hmem, hdup]]
                exact h
              · intro rid' room' hl'
                rw [show (joinCore genPlayerId now roomId playerId playerName password s).2.rooms
                    = setA (strTrim (roomId.getD ""))
                        { room with
                          players := room.players ++ [resolveId playerId genPlayerId]
                          lastUpdate := now
                          chatMessages := room.chatMessages ++
                            [{ id := "system-" ++ toString now, sender := "Система"
                               message := "Игрок " ++ strTrim (playerName.getD "")
                                 ++ " присоединился к игре"
                               timestamp := now, kind := .system }] }
                        s.rooms by
                  simp [joinCore, hm, hl, hpw, hful, hst, hmem, hdup]] at hl'
                by_cases hr : rid' = strTrim (roomId.getD "")
                · subst hr
                  rw [lookup_setA_self] at hl'
                  have hq := Option.some.inj hl'
                  subst hq
                  have hb := h _ room hl
                  refine ⟨by simp, ?_⟩
                  simp only [List.length_append, List.length_cons, List.length_nil]
                  push_cast
                  omega
                · rw [lookup_setA_ne _ rid' _ _ hr] at hl'
                  exact h rid' room' hl'
          · rw [show (joinCore genPlayerId now roomId playerId playerName password s).2
                = s by
              simp [joinCore, hm, hl, hpw, hful, hst]]
            exact h

theorem hInv_put (playerId : Option String) (now : Nat) {s : HState}
    (h : hInv s) : hInv (putHeartbeat playerId now s).2 := by
  cases playerId with
  | none => exact h
  | some pid =>
    by_cases he : pid = ""
    · rw [show (putHeartbeat (some pid) now s).2 = s by simp [putHeartbeat, he]]
      exact h
    · cases hl : List.lookup pid s.players with
      | none =>
        rw [show (putHeartbeat (some pid) now s).2 = s by simp [putHeartbeat, he, hl]]
        exact h
      | some player =>
        cases hrid : player.roomId with
        | none =>
          intro rid room hl'
          rw [show (putHeartbeat (some pid) now s).2.rooms = s.rooms by
            simp [putHeartbeat, he, hl, hrid]] at hl'
          exact h rid room hl'
        | some rid =>
          cases hlr : List.lookup rid s.rooms with
          | none =>
            intro rid' room' hl'
            rw [show (putHeartbeat (some pid) now s).2.rooms = s.rooms by
              simp [putHeartbeat, he, hl, hrid, hlr]] at hl'
            exact h rid' room' hl'
          | some room =>
            intro rid' room' hl'
            rw [show (putHeartbeat (some pid) now s).2.rooms
                = setA rid { room with lastUpdate := now } s.rooms by
              simp [putHeartbeat, he, hl, hrid, hlr]] at hl'
            by_cases hr : rid' = rid
            · subst hr
              rw [lookup_setA_self] at hl'
              have hq := Option.some.inj hl'
              subst hq
              exact ⟨(h rid' room hlr).1, (h rid' room hlr).2⟩
            · rw [lookup_setA_ne rid rid' _ _ hr] at hl'
              exact h rid' room' hl'

theorem hInv_delete (playerId : Option String) (now : Nat) {s : HState}
    (h : hInv s) : hInv (deleteLeave playerId now s).2 := by
  cases playerId with
  | none => exact h
  | some pid =>
    by_cases he : pid = ""
    · rw [show (deleteLeave (some pid) now s).2 = s by simp [deleteLeave, he]]
      exact h
    · cases hl : List.lookup pid s.players with
      | none =>
        rw [show (deleteLeave (some pid) now s).2 = s by simp [deleteLeave, he, hl]]
        exact h
      | some player =>
        cases hrid : player.roomId with
        | none =>
          intro rid room hl'
          rw [show (deleteLeave (some pid) now s).2.rooms = s.rooms by
            simp [deleteLeave, he, hl, hrid]] at hl'
          exact h rid room hl'
        | some rid =>
          cases hlr : List.lookup rid s.rooms with
          | none =>
            intro rid' room' hl'
            rw [show (deleteLeave (some pid) now s).2.rooms = s.rooms by
              simp [deleteLeave, he, hl, hrid, hlr]] at hl'
            exact h rid' room' hl'
          | some room =>
            have hb := h rid room hlr
            cases hfil : room.players.filter (fun q => q != pid) with
            | nil =>
              intro rid' room' hl'
              rw [show (deleteLeave (some pid) now s).2.rooms = eraseA rid s.rooms by
                simp [deleteLeave, he, hl, hrid, hlr, hfil]] at hl'
              by_cases hr : rid' = rid
              · subst hr
                rw [lookup_eraseA_self] at hl'
                cases hl'
              · rw [lookup_eraseA_ne rid rid' _ hr] at hl'
                exact h rid' room' hl'
            | cons h₀ t₀ =>
              have hlen : (((h₀ :: t₀ : List String)).length : Int) ≤ room.maxPlayers := by
                rw [← hfil]
                exact le_trans (by exact_mod_cast List.length_filter_le _ _) hb.2
              by_cases hhost : room.hostId = pid
              · intro rid' room' hl'
                rw [show (deleteLeave (some pid) now s).2.rooms
                    = setA rid
                        { room with
                          hostId := h₀
                          players := h₀ :: t₀
                          chatMessages := room.chatMessages ++
                            [{ id := "system-" ++ toString now, sender := "Система"
                               message := "Игрок " ++ player.name ++ " покинул комнату"
                               timestamp := now, kind := .system }] }
                        s.rooms by
                  simp [deleteLeave, he, hl, hrid, hlr, hfil, hhost]] at hl'
                by_cases hr : rid' = rid
                · subst hr
                  rw [lookup_setA_self] at hl'
                  have hq := Option.some.inj hl'
                  subst hq
                  exact ⟨by simp, hlen⟩
                · rw [lookup_setA_ne rid rid' _ _ hr] at hl'
                  exact h rid' room' hl'
              · intro rid' room' hl'
                rw [show (deleteLeave (some pid) now s).2.rooms
                    = setA rid
                        { room with
                          players := h₀ :: t₀
                          chatMessages := room.chatMessages ++
                            [{ id := "system-" ++ toString now, sender := "Система"
                               message := "Игрок " ++ player.name ++ " покинул комнату"
                               timestamp := now, kind := .system }] }
                        s.rooms by
                  simp [deleteLeave, he, hl, hrid, hlr, hfil, hhost]] at hl'
                by_cases hr : rid' = rid
                · subst hr
                  rw [lookup_setA_self] at hl'
                  have hq := Option.some.inj hl'
                  subst hq
                  exact ⟨by simp, hlen⟩
                · rw [lookup_setA_ne rid rid' _ _ hr] at hl'
                  exact h rid' room' hl'

/-- Every reachable state of the HTTP rooms registry satisfies the bounds
invariant. -/
theorem hInv_reach {s : HState} (h : HReach s) : hInv s := by
  induction h with
  | init => intro rid room hl; simp [hInit] at hl
  | get now _ ih => exact hInv_cleanup now ih
  | create genPlayerId genRoomCode now playerName roomName maxPlayers minPlayers
      isPrivate password _ ih =>
    exact hInv_createCore genPlayerId genRoomCode now playerName roomName
      maxPlayers minPlayers isPrivate password (hInv_cleanup now ih)
  | join genPlayerId now roomId playerId playerName password _ ih =>
    exact hInv_joinCore genPlayerId now roomId playerId playerName password
      (hInv_cleanup now ih)
  | heartbeat playerId now _ ih => exact hInv_put playerId now ih
  | leave playerId now _ ih => exact hInv_delete playerId now ih

/-- C2, counterexample: `GameServer.createRoom` (cited by the claim as
establishing a non-empty roster) inserts a room with an *empty* roster —
the host only enters the roster on its later `joinRoom` — so immediately
after the cited createRoom the room is present in the registry while
`1 ≤ |roster|` fails. -/
theorem c2_counterexample :
    GSReach (gsCreateRoom "R" "room" 10 4 false none "H" 0 gsInit) ∧
    (List.lookup "R" (gsCreateRoom "R" "room" 10 4 false none "H" 0 gsInit).rooms).map
      (fun r => r.players.length) = some 0 :=
  ⟨GSReach.create "R" "room" 10 4 false none "H" 0 GSReach.init, by decide⟩

/-- C2 (amended): in the HTTP rooms registry (`src/app/api/rooms/route.ts`
create/join/leave/cleanup), every reachable state has, for each stored
room, `1 ≤ |roster| ≤ maxPlayers` — create stores the creator, join guards
the capacity before pushing, and leave/cleanup delete a room whose roster
empties. In the websocket `GameServer`, by contrast, `createRoom` makes a
room with an empty roster, so there only the upper bound can hold. -/
theorem c2_roster_bounds (s : HState) (h : HReach s) (rid : String)
    (room : HRoom) (hroom : List.lookup rid s.rooms = some room) :
    1 ≤ room.players.length ∧ (room.players.length : Int) ≤ room.maxPlayers :=
  hInv_reach h rid room hroom

/-- C2 witness: the concrete reachable one-room store `hOne` satisfies the
bounds at room `"J6"`. -/
theorem c2_roster_bounds_witness :
    1 ≤ hOneRoom.players.length ∧
      (hOneRoom.players.length : Int) ≤ hOneRoom.maxPlayers :=
  c2_roster_bounds hOne
    (HReach.create "h1" "J6" 0 (some "Ann") (some "Six") (some 5) none false none
      HReach.init)
    "J6" hOneRoom (by decide)

/-! ## Claim C9 — janitor stale-player sweep -/

theorem exists_first_split {a : String} {l : List String} (h : a ∈ l) :
    ∃ l₁ l₂, l = l₁ ++ a :: l₂ ∧ a ∉ l₁ := by
  induction l with
  | nil => simp at h
  | cons hd tl ih =>
    by_cases hh : hd = a
    · exact ⟨[], tl, by simp [hh], by simp⟩
    · rcases List.mem_cons.mp h with h1 | h1
      · exact absurd h1.symm hh
      · obtain ⟨l₁, l₂, heq, hni⟩ := ih h1
        refine ⟨hd :: l₁, l₂, by simp [heq], ?_⟩
        intro hc
        rcases List.mem_cons.mp hc with hc | hc
        · exact hh hc.symm
        · exact hni hc

theorem length_filter_bne {l : List String} {a : String} (hnd : l.Nodup)
    (h : a ∈ l) : (l.filter (fun q => q != a)).length + 1 = l.length := by
  induction l with
  | nil => simp at h
  | cons hd tl ih =>
    rw [List.nodup_cons] at hnd
    rcases List.mem_cons.mp h with h1 | h1
    · rw [List.filter_cons, if_neg (by simp [h1])]
      have hself : tl.filter (fun q => q != a) = tl := by
        apply List.filter_eq_self.mpr
        intro x hx
        rw [bne_iff_ne]
        intro hc
        rw [hc, h1] at hx
        exact hnd.1 hx
      rw [hself]
      simp
    · have hne : hd ≠ a := fun hc => hnd.1 (hc ▸ h1)
      rw [List.filter_cons, if_pos (by simp [bne_iff_ne, hne])]
      have := ih hnd.2 h1
      simp only [List.length_cons]
      omega

/-- A sweep step at a key whose record is absent or fresh is the
identity. -/
theorem playerStep_fresh (now : Nat) (k : String) {t : HState}
    (h : ∀ qp, List.lookup k t.players = some qp →
      now - qp.lastSeen ≤ staleTimeout) :
    cleanupPlayerStep now t k = t := by
  cases hl : List.lookup k t.players with
  | none => simp [cleanupPlayerStep, hl]
  | some qp =>
    have hfr := h qp hl
    rw [show cleanupPlayerStep now t k = t by
      simp only [cleanupPlayerStep, hl]
      rw [if_neg (by omega)]]

theorem playerSweep_fresh (now : Nat) (ks : List String) {t : HState}
    (h : ∀ q ∈ ks, ∀ qp, List.lookup q t.players = some qp →
      now - qp.lastSeen ≤ staleTimeout) :
    ks.foldl (cleanupPlayerStep now) t = t := by
  induction ks with
  | nil => rfl
  | cons k ks ih =>
    rw [List.foldl_cons, playerStep_fresh now k (fun qp hl => h k (by simp) qp hl)]
    exact ih (fun q hq qp hlq => h q (by simp [hq]) qp hlq)

theorem roomStep_players (now : Nat) (t : HState) (k : String) :
    (cleanupRoomStep now t k).players = t.players := by
  cases hl : List.lookup k t.rooms with
  | none => simp [cleanupRoomStep, hl]
  | some room =>
    by_cases hc : room.players.length = 0 ∨ staleTimeout < now - room.lastUpdate
    · rw [show cleanupRoomStep now t k = { t with rooms := eraseA k t.rooms } by
        simp only [cleanupRoomStep, hl]
        rw [if_pos hc]]
    · rw [show cleanupRoomStep now t k = t by
        simp only [cleanupRoomStep, hl]
        rw [if_neg hc]]

theorem roomSweep_players (now : Nat) (ks : List String) (t : HState) :
    (ks.foldl (cleanupRoomStep now) t).players = t.players := by
  induction ks generalizing t with
  | nil => rfl
  | cons k ks ih =>
    rw [List.foldl_cons, ih, roomStep_players]

theorem capFold_players (ks : List String) (t : HState) :
    (ks.foldl (fun st k => { st with rooms := eraseA k st.rooms }) t).players
      = t.players := by
  induction ks generalizing t with
  | nil => rfl
  | cons k ks ih => rw [List.foldl_cons, ih]

theorem cap_players (t : HState) : (cleanupCap t).players = t.players := by
  unfold cleanupCap
  by_cases hc : 100 < t.rooms.length
  · rw [if_pos hc]
    exact capFold_players _ _
  · rw [if_neg hc]

theorem roomStep_lookup_some {now : Nat} {t : HState} {k rid : String}
    {r : HRoom} (h : List.lookup rid (cleanupRoomStep now t k).rooms = some r) :
    List.lookup rid t.rooms = some r := by
  cases hl : List.lookup k t.rooms with
  | none =>
    rw [show cleanupRoomStep now t k = t by simp [cleanupRoomStep, hl]] at h
    exact h
  | some room =>
    by_cases hc : room.players.length = 0 ∨ staleTimeout < now - room.lastUpdate
    · rw [show cleanupRoomStep now t k = { t with rooms := eraseA k t.rooms } by
        simp only [cleanupRoomStep, hl]
        rw [if_pos hc]] at h
      by_cases hr : rid = k
      · subst hr
        rw [lookup_eraseA_self] at h
        cases h
      · rw [lookup_eraseA_ne k rid _ hr] at h
        exact h
    · rw [show cleanupRoomStep now t k = t by
        simp only [cleanupRoomStep, hl]
        rw [if_neg hc]] at h
      exact h

theorem roomSweep_lookup_some {now : Nat} {ks : List String} {t : HState}
    {rid : String} {r : HRoom}
    (h : List.lookup rid (ks.foldl (cleanupRoomStep now) t).rooms = some r) :
    List.lookup rid t.rooms = some r := by
  induction ks generalizing t with
  | nil => exact h
  | cons k ks ih =>
    rw [List.foldl_cons] at h
    exact roomStep_lookup_some (ih h)

theorem capFold_lookup_some {ks : List String} {t : HState} {rid : String}
    {r : HRoom}
    (h : List.lookup rid
      (ks.foldl (fun st k => { st with rooms := eraseA k st.rooms }) t).rooms
      = some r) :
    List.lookup rid t.rooms = some r := by
  induction ks generalizing t with
  | nil => exact h
  | cons k ks ih =>
    rw [List.foldl_cons] at h
    have h2 := ih h
    by_cases hr : rid = k
    · subst hr
      rw [lookup_eraseA_self] at h2
      cases h2
    · rw [lookup_eraseA_ne k rid _ hr] at h2
      exact h2

theorem cap_lookup_some {t : HState} {rid : String} {r : HRoom}
    (h : List.lookup rid (cleanupCap t).rooms = some r) :
    List.lookup rid t.rooms = some r := by
  unfold cleanupCap at h
  by_cases hc : 100 < t.rooms.length
  · rw [if_pos hc] at h
    exact capFold_lookup_some h
  · rw [if_neg hc] at h
    exact h

/-- The stale player's directory record is gone after its sweep step. -/
theorem removeStale_lookup_pid (now : Nat) (pid : String) (player : HPlayer)
    (s : HState) :
    List.lookup pid (removeStalePlayer now pid player s).players = none := by
  cases hrid : player.roomId with
  | none =>
    rw [show (removeStalePlayer now pid player s).players = eraseA pid s.players by
      simp [removeStalePlayer, hrid]]
    exact lookup_eraseA_self pid s.players
  | some rid =>
    cases hlr : List.lookup rid s.rooms with
    | none =>
      rw [show (removeStalePlayer now pid player s).players = eraseA pid s.players by
        simp [removeStalePlayer, hrid, hlr]]
      exact lookup_eraseA_self pid s.players
    | some room =>
      cases hfil : room.players.filter (fun q => q != pid) with
      | nil =>
        rw [show (removeStalePlayer now pid player s).players
            = eraseA pid s.players by
          simp [removeStalePlayer, hrid, hlr, hfil]]
        exact lookup_eraseA_self pid s.players
      | cons h₀ t₀ =>
        have hh0 : h₀ ≠ pid := by
          have hmem0 : h₀ ∈ room.players.filter (fun q => q != pid) := by
            rw [hfil]
            exact List.mem_cons_self _ _
          have := (List.mem_filter.mp hmem0).2
          rwa [bne_iff_ne] at this
        by_cases hhost : room.hostId = pid
        · cases hnh : List.lookup h₀ (eraseA pid s.players) with
          | none =>
            rw [show (removeStalePlayer now pid player s).players
                = eraseA pid s.players by
              simp [removeStalePlayer, hrid, hlr, hfil, hhost, hnh]]
            exact lookup_eraseA_self pid s.players
          | some nh =>
            rw [show (removeStalePlayer now pid player s).players
                = setA h₀ { nh with isHost := true } (eraseA pid s.players) by
              simp [removeStalePlayer, hrid, hlr, hfil, hhost, hnh]]
            rw [lookup_setA_ne h₀ pid _ _ (Ne.symm hh0)]
            exact lookup_eraseA_self pid s.players
        · rw [show (removeStalePlayer now pid player s).players
              = eraseA pid s.players by
            simp [removeStalePlayer, hrid, hlr, hfil, hhost]]
          exact lookup_eraseA_self pid s.players

/-- For any other id, the sweep step preserves the record's `lastSeen`
(its `isHost` flag may change on host succession). -/
theorem removeStale_lookup_other (now : Nat) (pid : String) (player : HPlayer)
    (s : HState) (q : String) (hq : q ≠ pid) (qp : HPlayer)
    (hlq : List.lookup q (removeStalePlayer now pid player s).players = some qp) :
    ∃ qp₀, List.lookup q s.players = some qp₀ ∧ qp.lastSeen = qp₀.lastSeen := by
  cases hrid : player.roomId with
  | none =>
    rw [show (removeStalePlayer now pid player s).players = eraseA pid s.players by
      simp [removeStalePlayer, hrid]] at hlq
    rw [lookup_eraseA_ne pid q _ hq] at hlq
    exact ⟨qp, hlq, rfl⟩
  | some rid =>
    cases hlr : List.lookup rid s.rooms with
    | none =>
      rw [show (removeStalePlayer now pid player s).players = eraseA pid s.players by
        simp [removeStalePlayer, hrid, hlr]] at hlq
      rw [lookup_eraseA_ne pid q _ hq] at hlq
      exact ⟨qp, hlq, rfl⟩
    | some room =>
      cases hfil : room.players.filter (fun q => q != pid) with
      | nil =>
        rw [show (removeStalePlayer now pid player s).players
            = eraseA pid s.players by
          simp [removeStalePlayer, hrid, hlr, hfil]] at hlq
        rw [lookup_eraseA_ne pid q _ hq] at hlq
        exact ⟨qp, hlq, rfl⟩
      | cons h₀ t₀ =>
        by_cases hhost : room.hostId = pid
        · cases hnh : List.lookup h₀ (eraseA pid s.players) with
          | none =>
            rw [show (removeStalePlayer now pid player s).players
                = eraseA pid s.players by
              simp [removeStalePlayer, hrid, hlr, hfil, hhost, hnh]] at hlq
            rw [lookup_eraseA_ne pid q _ hq] at hlq
            exact ⟨qp, hlq, rfl⟩
          | some nh =>
            rw [show (removeStalePlayer now pid player s).players
                = setA h₀ { nh with isHost := true } (eraseA pid s.players) by
              simp [removeStalePlayer, hrid, hlr, hfil, hhost, hnh]] at hlq
            by_cases hq0 : q = h₀
            · subst hq0
              rw [lookup_setA_self] at hlq
              have hqe := Option.some.inj hlq
              rw [lookup_eraseA_ne pid q _ hq] at hnh
              exact ⟨nh, hnh, by rw [← hqe]⟩
            · rw [lookup_setA_ne h₀ q _ _ hq0, lookup_eraseA_ne pid q _ hq] at hlq
              exact ⟨qp, hlq, rfl⟩
        · rw [show (removeStalePlayer now pid player s).players
              = eraseA pid s.players by
            simp [removeStalePlayer, hrid, hlr, hfil, hhost]] at hlq
          rw [lookup_eraseA_ne pid q _ hq] at hlq
          exact ⟨qp, hlq, rfl⟩

/-- C9: a janitor tick on a store with exactly one stale player (every
other directory record is fresh) removes that player from the directory
and from their room's roster — the roster shrinks by exactly one — and if
the player was the room's sole occupant, the room is absent from the
registry after the same tick. -/
theorem c9_cleanup_stale (s : HState) (now : Nat) (pid : String)
    (player : HPlayer) (rid : String) (room : HRoom)
    (hp : List.lookup pid s.players = some player)
    (hstale : staleTimeout < now - player.lastSeen)
    (hfresh : ∀ q qp, q ≠ pid → List.lookup q s.players = some qp →
      now - qp.lastSeen ≤ staleTimeout)
    (hrid : player.roomId = some rid)
    (hroom : List.lookup rid s.rooms = some room)
    (hmem : pid ∈ room.players)
    (hnd : room.players.Nodup) :
    List.lookup pid (cleanup now s).players = none ∧
    (room.players = [pid] → List.lookup rid (cleanup now s).rooms = none) ∧
    (∀ room', List.lookup rid (cleanup now s).rooms = some room' →
      room'.players = room.players.filter (fun q => q != pid) ∧
      room'.players.length + 1 = room.players.length) := by
  have hpidkeys : pid ∈ s.players.map Prod.fst := by
    by_contra hc
    rw [lookup_none_iff_keys.mpr hc] at hp
    cases hp
  obtain ⟨L₁, L₂, hsplit, hnotin⟩ := exists_first_split hpidkeys
  have hstep : cleanupPlayerStep now s pid = removeStalePlayer now pid player s := by
    simp only [cleanupPlayerStep, hp]
    rw [if_pos hstale]
  have hphase1 : (s.players.map Prod.fst).foldl (cleanupPlayerStep now) s
      = removeStalePlayer now pid player s := by
    rw [hsplit, List.foldl_append,
      playerSweep_fresh now L₁
        (fun q hqL qp hlq => hfresh q qp (fun hc => hnotin (hc ▸ hqL)) hlq),
      List.foldl_cons, hstep]
    apply playerSweep_fresh now L₂
    intro q _ qp hlq
    by_cases hqpid : q = pid
    · subst hqpid
      rw [removeStale_lookup_pid] at hlq
      cases hlq
    · obtain ⟨qp₀, hl₀, hls⟩ :=
        removeStale_lookup_other now pid player s q hqpid qp hlq
      rw [hls]
      exact hfresh q qp₀ hqpid hl₀
  have hclean : cleanup now s = cleanupCap
      (((removeStalePlayer now pid player s).rooms.map Prod.fst).foldl
        (cleanupRoomStep now) (removeStalePlayer now pid player s)) := by
    unfold cleanup
    rw [hphase1]
  refine ⟨?_, ?_, ?_⟩
  · rw [hclean, cap_players, roomSweep_players]
    exact removeStale_lookup_pid now pid player s
  · intro hsolo
    have hfil : room.players.filter (fun q => q != pid) = [] := by
      rw [hsolo]
      simp
    have hrooms' : (removeStalePlayer now pid player s).rooms = eraseA rid s.rooms := by
      simp [removeStalePlayer, hrid, hroom, hfil]
    cases hx : List.lookup rid (cleanup now s).rooms with
    | none => rfl
    | some r' =>
      rw [hclean] at hx
      have h2 := roomSweep_lookup_some (cap_lookup_some hx)
      rw [hrooms', lookup_eraseA_self] at h2
      cases h2
  · intro room' h3
    rw [hclean] at h3
    have h2 := roomSweep_lookup_some (cap_lookup_some h3)
    cases hfil : room.players.filter (fun q => q != pid) with
    | nil =>
      rw [show (removeStalePlayer now pid player s).rooms = eraseA rid s.rooms by
        simp [removeStalePlayer, hrid, hroom, hfil], lookup_eraseA_self] at h2
      cases h2
    | cons h₀ t₀ =>
      have hlenf := length_filter_bne hnd hmem
      by_cases hhost : room.hostId = pid
      · rw [show (removeStalePlayer now pid player s).rooms
            = setA rid
                { room with
                  hostId := h₀
                  players := h₀ :: t₀
                  chatMessages := room.chatMessages ++
                    [{ id := "system-" ++ toString now, sender := "Система"
                       message := "Игрок " ++ player.name ++ " отключился"
                       timestamp := now, kind := .system }] }
                s.rooms by
          simp [removeStalePlayer, hrid, hroom, hfil, hhost],
          lookup_setA_self] at h2
        have hq := Option.some.inj h2
        subst hq
        rw [hfil] at hlenf
        exact ⟨rfl, hlenf⟩
      · rw [show (removeStalePlayer now pid player s).rooms
            = setA rid
                { room with
                  players := h₀ :: t₀
                  chatMessages := room.chatMessages ++
                    [{ id := "system-" ++ toString now, sender := "Система"
                       message := "Игрок " ++ player.name ++ " отключился"
                       timestamp := now, kind := .system }] }
                s.rooms by
          simp [removeStalePlayer, hrid, hroom, hfil, hhost],
          lookup_setA_self] at h2
        have hq := Option.some.inj h2
        subst hq
        rw [hfil] at hlenf
        exact ⟨rfl, hlenf⟩

/-- C9 witness: the concrete store `hSolo` (one room `"R9"`, sole member
`"p1"` last seen at 0) swept at `staleTimeout + 1`: the player record is
gone and the room is gone. -/
theorem c9_cleanup_stale_witness :
    List.lookup "p1" (cleanup (staleTimeout + 1) hSolo).players = none ∧
    (hSoloRoom.players = ["p1"] →
      List.lookup "R9" (cleanup (staleTimeout + 1) hSolo).rooms = none) ∧
    (∀ room', List.lookup "R9" (cleanup (staleTimeout + 1) hSolo).rooms = some room' →
      room'.players = hSoloRoom.players.filter (fun q => q != "p1") ∧
      room'.players.length + 1 = hSoloRoom.players.length) :=
  c9_cleanup_stale hSolo (staleTimeout + 1) "p1" hSoloPlayer "R9" hSoloRoom
    (by decide) (by decide)
    (by
      intro q qp hq hl
      rw [show hSolo.players = [("p1", hSoloPlayer)] by decide] at hl
      rw [lookup_cons_if, if_neg (by simp [hq])] at hl
      simp at hl)
    (by decide) (by decide) (by decide) (by decide)

end Coordinator
